import Mathlib

/-!
Shallow embedding of the turn-resolution engine of the startup-simulator
repository (files `startup_simulator/startup.py`, `actions.py`, `events.py`,
`finance.py`, `main.py`), together with theorems settling the specification
claims about it.

Numeric conventions: Python ints are modelled as `Int`; Python floats are
modelled as exact rationals (`Rat`), since no claim concerns floating-point
precision.  Python `round` is round-half-to-even, modelled by `roundHalfEven`.
In-place mutation is modelled by explicit state passing; a Python function
that can raise returns its (possibly partially mutated) state together with
an `Option`/`Except` error.  The session RNG (`random.Random`) is modelled as
a list of pending uniform draws consumed from the front.
-/

namespace StartupSim

/-- Python `round`: round to the nearest integer, ties to even. -/
def roundHalfEven (q : Rat) : Int :=
  let f := q.floor
  let frac := q - (f : Rat)
  if frac < 1/2 then f
  else if 1/2 < frac then f + 1
  else if f % 2 = 0 then f else f + 1

/-- One integer entry of `Startup.clamp_all` for `_INT_BOUNDS`: every bound in
`config.STARTUP_INT_BOUNDS` has minimum 0 and no maximum, so only the lower
clamp of the loop body is reachable. -/
def clampIntMin (lo v : Int) : Int :=
  if v < lo then lo else v

/-- One float entry of `Startup.clamp_all` (used for both `_PERCENT_BOUNDS`
and `_RATE_BOUNDS`): first raise to the minimum, then cap at the maximum,
exactly in the order of the two `if` statements of the source. -/
def clampRat (lo hi v : Rat) : Rat :=
  let v1 := if v < lo then lo else v
  if hi < v1 then hi else v1

/-- The mutable state of `startup.Startup` (startup.py, lines 25-58).
`rng_seed` is stored as a rational because Python would let a float delta
land there; on all claim-relevant paths it holds an integer. -/
structure Startup where
  balance : Int
  monthly_revenue : Int
  monthly_expenses : Int
  users : Int
  growth_rate : Rat
  churn_rate : Rat
  product_quality : Rat
  brand_awareness : Rat
  team_morale : Rat
  headcount : Int
  debt : Int
  turn : Int
  rng_seed : Rat
  active_events : List String
deriving DecidableEq

/-- `DEFAULT_BASELINE_STATE` together with the dataclass defaults `turn = 1`
and `rng_seed = config.DEFAULT_SEED = 42`: the state built by `Startup()`
(its `__post_init__` clamp leaves these values unchanged). -/
def defaultStartup : Startup :=
  { balance := 500000
    monthly_revenue := 45000
    monthly_expenses := 110000
    users := 1500
    growth_rate := 0.08
    churn_rate := 0.04
    product_quality := 60
    brand_awareness := 40
    team_morale := 70
    headcount := 18
    debt := 0
    turn := 1
    rng_seed := 42
    active_events := [] }

/-- `Startup.clamp_all` (startup.py, lines 60-92), with the bound tables of
config.py inlined: integer fields are floored at 0, percentage fields clamped
into [0, 100], rate fields into [0.0, 1.0]. -/
def Startup.clamp_all (s : Startup) : Startup :=
  { s with
    balance := clampIntMin 0 s.balance
    monthly_revenue := clampIntMin 0 s.monthly_revenue
    monthly_expenses := clampIntMin 0 s.monthly_expenses
    users := clampIntMin 0 s.users
    headcount := clampIntMin 0 s.headcount
    debt := clampIntMin 0 s.debt
    turn := clampIntMin 0 s.turn
    product_quality := clampRat 0 100 s.product_quality
    brand_awareness := clampRat 0 100 s.brand_awareness
    team_morale := clampRat 0 100 s.team_morale
    growth_rate := clampRat 0 1 s.growth_rate
    churn_rate := clampRat 0 1 s.churn_rate }

/-- Every bounded field of the state lies within its declared range
(config.py `STARTUP_INT_BOUNDS`, `STARTUP_PERCENT_BOUNDS`,
`STARTUP_RATE_BOUNDS`). -/
def InBounds (s : Startup) : Prop :=
  0 ≤ s.balance ∧ 0 ≤ s.monthly_revenue ∧ 0 ≤ s.monthly_expenses ∧
  0 ≤ s.users ∧ 0 ≤ s.headcount ∧ 0 ≤ s.debt ∧ 0 ≤ s.turn ∧
  0 ≤ s.product_quality ∧ s.product_quality ≤ 100 ∧
  0 ≤ s.brand_awareness ∧ s.brand_awareness ≤ 100 ∧
  0 ≤ s.team_morale ∧ s.team_morale ≤ 100 ∧
  0 ≤ s.growth_rate ∧ s.growth_rate ≤ 1 ∧
  0 ≤ s.churn_rate ∧ s.churn_rate ≤ 1

instance (s : Startup) : Decidable (InBounds s) := by
  unfold InBounds
  infer_instance

/-- `Startup.recompute_runway` (startup.py, lines 134-139); Python `//` is
floor division, hence `Int.fdiv`. -/
def Startup.recompute_runway (s : Startup) : Int :=
  if s.monthly_expenses ≤ 0 then 0
  else max 0 (Int.fdiv s.balance s.monthly_expenses)

/-- `finance.compute_runway` (finance.py, lines 44-65). -/
def compute_runway (balance expenses : Int) : Int :=
  let normalized_expenses := max 0 expenses
  if normalized_expenses = 0 then 0
  else Int.fdiv (max 0 balance) normalized_expenses

/-- `finance.apply_monthly_finances` (finance.py, lines 68-85). -/
def apply_monthly_finances (balance revenue expenses : Int) : Int :=
  let normalized_expenses := max 0 expenses
  balance + revenue - normalized_expenses

/-- `Startup.bug_rate` (startup.py, lines 123-132) with
`METRIC_VALUE_RANGE = (0, 100)` and `PROBABILITY_RANGE = (0, 1)` inlined. -/
def Startup.bug_rate (s : Startup) : Rat :=
  let span : Rat := max 1 (100 - 0)
  let quality_ratio := (s.product_quality - 0) / span
  let clamped_ratio := max 0 (min 1 quality_ratio)
  1 - clamped_ratio

/-- `Startup.compute_company_value` (startup.py, lines 94-121) with the
weights of `config.COMPANY_VALUE_WEIGHTS` and `COMPANY_EXPENSE_WEIGHT`
inlined. -/
def Startup.compute_company_value (s : Startup) : Int :=
  let annual_revenue : Rat := (s.monthly_revenue : Rat) * 12
  let revenue_component := annual_revenue * 1.1
  let market_share_component := (s.users : Rat) * 30
  let reputation_score := (s.product_quality + s.brand_awareness + s.team_morale) / 3
  let reputation_component := reputation_score * 1000
  let team_component := (s.headcount : Rat) * 2000
  let bug_penalty := s.bug_rate * (-200000)
  let expense_penalty := (s.monthly_expenses : Rat) * 12 * 1.05
  let debt_penalty : Int := max 0 s.debt
  let value := (s.balance : Rat) + revenue_component + market_share_component +
    reputation_component + team_component + bug_penalty - expense_penalty -
    (debt_penalty : Rat)
  max 0 (roundHalfEven value)

/-- `main._check_endings` (main.py, lines 200-230). -/
def check_endings (s : Startup) : Option (String × String) :=
  if s.balance ≤ 0 then
    some ("Bankruptcy",
      "Cash reserves have run dry and operations can no longer continue.")
  else if s.team_morale ≤ 5 then
    some ("Team Walkout",
      "Morale collapsed and the remaining team resigned en masse.")
  else if 5000000 ≤ s.compute_company_value ∧ 75 ≤ s.brand_awareness then
    some ("Triumphant Exit",
      "Investors line up to acquire your thriving company at a stellar valuation.")
  else if s.recompute_runway ≤ 1 ∧ s.monthly_revenue < s.monthly_expenses ∧
      s.balance < 25000 then
    some ("Out of Runway",
      "Runway has dwindled to nothing and additional funding could not be secured.")
  else if 36 < s.turn then
    some ("IPO Ready",
      "Three years of steady execution culminate in a confident march towards an IPO.")
  else none

/-- Errors raised by `Startup.apply_deltas`: `KeyError` for an attribute the
state does not have, `ValueError` for a delta aimed at the `active_events`
list. -/
inductive DeltaError where
  | unknownField (key : String)
  | listField (key : String)
deriving DecidableEq

/-- The attribute test `hasattr(startup, key)` restricted to the data fields
of the dataclass (methods are not fields and no claim involves them). -/
def hasAttr (k : String) : Bool :=
  k = "balance" || k = "monthly_revenue" || k = "monthly_expenses" ||
  k = "users" || k = "growth_rate" || k = "churn_rate" ||
  k = "product_quality" || k = "brand_awareness" || k = "team_morale" ||
  k = "headcount" || k = "debt" || k = "turn" || k = "rng_seed" ||
  k = "active_events"

/-- One iteration of the `Startup.apply_deltas` loop (startup.py, lines
144-155): unknown attribute fails, `active_events` fails, a field in
`_INT_FIELDS` gets `int(round(current + delta))`, any other numeric field
gets `current + delta`. -/
def applyOneDelta (s : Startup) (key : String) (delta : Rat) :
    Except DeltaError Startup :=
  if key = "balance" then
    .ok { s with balance := roundHalfEven ((s.balance : Rat) + delta) }
  else if key = "monthly_revenue" then
    .ok { s with monthly_revenue := roundHalfEven ((s.monthly_revenue : Rat) + delta) }
  else if key = "monthly_expenses" then
    .ok { s with monthly_expenses := roundHalfEven ((s.monthly_expenses : Rat) + delta) }
  else if key = "users" then
    .ok { s with users := roundHalfEven ((s.users : Rat) + delta) }
  else if key = "headcount" then
    .ok { s with headcount := roundHalfEven ((s.headcount : Rat) + delta) }
  else if key = "debt" then
    .ok { s with debt := roundHalfEven ((s.debt : Rat) + delta) }
  else if key = "turn" then
    .ok { s with turn := roundHalfEven ((s.turn : Rat) + delta) }
  else if key = "growth_rate" then
    .ok { s with growth_rate := s.growth_rate + delta }
  else if key = "churn_rate" then
    .ok { s with churn_rate := s.churn_rate + delta }
  else if key = "product_quality" then
    .ok { s with product_quality := s.product_quality + delta }
  else if key = "brand_awareness" then
    .ok { s with brand_awareness := s.brand_awareness + delta }
  else if key = "team_morale" then
    .ok { s with team_morale := s.team_morale + delta }
  else if key = "rng_seed" then
    .ok { s with rng_seed := s.rng_seed + delta }
  else if key = "active_events" then
    .error (.listField key)
  else
    .error (.unknownField key)

/-- The `for key, delta in deltas.items()` loop of `Startup.apply_deltas`:
deltas are applied in order; on the first failing key the loop stops, leaving
the deltas already applied in place (in-place mutation in the source). -/
def applyDeltasLoop (s : Startup) : List (String × Rat) → Startup × Option DeltaError
  | [] => (s, none)
  | (k, d) :: rest =>
    match applyOneDelta s k d with
    | .ok s2 => applyDeltasLoop s2 rest
    | .error e => (s, some e)

/-- `Startup.apply_deltas` (startup.py, lines 141-156): run the loop, then
clamp unconditionally — but only when no entry raised; an exception escapes
before the final `clamp_all` call. -/
def Startup.apply_deltas (s : Startup) (deltas : List (String × Rat)) :
    Startup × Option DeltaError :=
  match applyDeltasLoop s deltas with
  | (s2, none) => (s2.clamp_all, none)
  | (s2, some e) => (s2, some e)

/-- The serialisable snapshot of `Startup.snapshot` (startup.py, lines
158-176): a record with every field of the state. -/
structure Snapshot where
  balance : Int
  monthly_revenue : Int
  monthly_expenses : Int
  users : Int
  growth_rate : Rat
  churn_rate : Rat
  product_quality : Rat
  brand_awareness : Rat
  team_morale : Rat
  headcount : Int
  debt : Int
  turn : Int
  rng_seed : Rat
  active_events : List String
deriving DecidableEq

/-- `Startup.snapshot` (startup.py, lines 158-176). -/
def Startup.snapshot (s : Startup) : Snapshot :=
  { balance := s.balance
    monthly_revenue := s.monthly_revenue
    monthly_expenses := s.monthly_expenses
    users := s.users
    growth_rate := s.growth_rate
    churn_rate := s.churn_rate
    product_quality := s.product_quality
    brand_awareness := s.brand_awareness
    team_morale := s.team_morale
    headcount := s.headcount
    debt := s.debt
    turn := s.turn
    rng_seed := s.rng_seed
    active_events := s.active_events }

/-- `Startup.from_snapshot` (startup.py, lines 178-206) applied to a complete
snapshot (as produced by `Startup.snapshot`, so no `data.get` default fires):
the scalar keys are passed to the constructor — whose `__post_init__` clamps —
with `active_events` left at its `[]` default, then `active_events` is
replaced by the stored list and the state is clamped again. -/
def Startup.from_snapshot (d : Snapshot) : Startup :=
  let constructed : Startup :=
    { balance := d.balance
      monthly_revenue := d.monthly_revenue
      monthly_expenses := d.monthly_expenses
      users := d.users
      growth_rate := d.growth_rate
      churn_rate := d.churn_rate
      product_quality := d.product_quality
      brand_awareness := d.brand_awareness
      team_morale := d.team_morale
      headcount := d.headcount
      debt := d.debt
      turn := d.turn
      rng_seed := d.rng_seed
      active_events := [] }
  let inst := constructed.clamp_all
  let withEvents := { inst with active_events := d.active_events }
  withEvents.clamp_all

/-- The success/failure payload of an action risk block (actions.py): an
optional `effects` mapping and a narrative string (Python treats a missing or
empty narrative as no outcome text). -/
structure RiskBranch where
  effects : Option (List (String × Rat))
  narrative : String
deriving DecidableEq

/-- An action risk block: `success_chance` (already defaulted to 0.0 by
`float(action.risk.get("success_chance", 0.0))`) plus the two optional
branches. -/
structure RiskSpec where
  success_chance : Rat
  success : Option RiskBranch
  failure : Option RiskBranch
deriving DecidableEq

/-- `actions.Action` (actions.py, lines 16-27); cost and effect mappings keep
their insertion order, modelled as association lists. -/
structure Action where
  id : String
  name : String
  costs : List (String × Rat)
  effects : List (String × Rat)
  risk : Option RiskSpec
  narrative : String
  max_per_turn : Option Int
deriving DecidableEq

/-- Errors raised by `actions.apply_action` and its helpers. -/
inductive ActionError where
  | unknownAction (id : String)
  | insufficientFunds
  | deltaError (e : DeltaError)
deriving DecidableEq

/-- `actions._apply_deltas` (actions.py, lines 216-223): every key is checked
with `hasattr` before any mutation, so an unknown key aborts with the state
untouched; an empty mapping skips `Startup.apply_deltas` entirely. -/
def actionsApplyDeltas (s : Startup) (deltas : List (String × Rat)) :
    Startup × Option DeltaError :=
  match deltas.find? (fun kd => !hasAttr kd.1) with
  | some kd => (s, some (.unknownField kd.1))
  | none => if deltas.isEmpty then (s, none) else s.apply_deltas deltas

/-- The cost application of `actions._apply_costs` after the affordability
check has passed: negate every cost and apply it. -/
def applyCostsGo (s : Startup) (a : Action) : Startup × Option ActionError :=
  match actionsApplyDeltas s (a.costs.map (fun kd => (kd.1, -kd.2))) with
  | (s2, none) => (s2, none)
  | (s2, some e) => (s2, some (.deltaError e))

/-- `actions._apply_costs` (actions.py, lines 226-235): no costs is a no-op;
a declared balance cost above the current balance raises before anything is
deducted; otherwise all costs are applied as negative deltas. -/
def applyCosts (s : Startup) (a : Action) : Startup × Option ActionError :=
  if a.costs.isEmpty then (s, none)
  else
    match a.costs.lookup "balance" with
    | some c => if (s.balance : Rat) < c then (s, some .insufficientFunds) else applyCostsGo s a
    | none => applyCostsGo s a

/-- The branch selection of `apply_action` (actions.py, line 254):
`branch_key = "success" if roll < success_chance else "failure"` — the
comparison is strict. -/
def riskBranchKeySuccess (roll success_chance : Rat) : Bool :=
  roll < success_chance

/-- Lines 255-262 of `apply_action`: a present branch applies its effects
mapping (when it is a mapping) and yields its narrative when nonempty; an
absent branch does nothing. -/
def applyRiskBranch (s : Startup) (branch : Option RiskBranch) :
    Startup × Option DeltaError × Option String :=
  match branch with
  | none => (s, none, none)
  | some b =>
    match b.effects with
    | some eff =>
      match actionsApplyDeltas s eff with
      | (s2, some e) => (s2, some e, none)
      | (s2, none) => (s2, none, if b.narrative = "" then none else some b.narrative)
    | none => (s, none, if b.narrative = "" then none else some b.narrative)

/-- The risk resolution of `apply_action`: pick the success branch exactly
when the drawn roll is strictly below `success_chance`, else the failure
branch, and apply it. -/
def resolveRisk (s : Startup) (r : RiskSpec) (roll : Rat) :
    Startup × Option DeltaError × Option String :=
  applyRiskBranch s (if riskBranchKeySuccess roll r.success_chance then r.success else r.failure)

/-- Registry lookup `ACTION_REGISTRY[action_id]` over the registry mapping
(insertion-ordered, unique ids). -/
def lookupAction (registry : List Action) (aid : String) : Option Action :=
  registry.find? (fun a => a.id = aid)

/-- Line 269 of `apply_action`: space-join the nonempty narrative parts. -/
def joinNarrative (parts : List String) : String :=
  String.intercalate " " (parts.filter (fun p => p ≠ ""))

/-- `actions.apply_action` (actions.py, lines 238-270).  Result: the final
(possibly partially advanced) state, the remaining RNG stream, and either the
assembled narrative or the raised error.  A risk block consumes exactly one
draw from the stream; every other path leaves the stream untouched. -/
def apply_action (registry : List Action) (s : Startup) (action_id : String)
    (rng : List Rat) : Startup × List Rat × Except ActionError String :=
  match lookupAction registry action_id with
  | none => (s, rng, .error (.unknownAction action_id))
  | some action =>
    let narrative_parts : List String :=
      if action.narrative = "" then [] else [action.narrative.trim]
    match applyCosts s action with
    | (s1, some e) => (s1, rng, .error e)
    | (s1, none) =>
      match actionsApplyDeltas s1 action.effects with
      | (s2, some e) => (s2, rng, .error (.deltaError e))
      | (s2, none) =>
        match action.risk with
        | none => (s2.clamp_all, rng, .ok (joinNarrative narrative_parts))
        | some r =>
          let roll := rng.headD 0
          let rng2 := rng.tail
          match resolveRisk s2 r roll with
          | (s3, some e, _) => (s3, rng2, .error (.deltaError e))
          | (s3, none, outcome) =>
            let parts := narrative_parts ++
              (match outcome with
               | some t => [t.trim]
               | none => [])
            (s3.clamp_all, rng2, .ok (joinNarrative parts))

/-- The built-in action `ship_feature` of `actions._fallback_actions`. -/
def ship_feature : Action :=
  { id := "ship_feature"
    name := "Ship Major Feature"
    costs := [("balance", 25000), ("team_morale", 3)]
    effects := [("product_quality", 8), ("users", 400)]
    risk := some
      { success_chance := 0.8
        success := some
          { effects := some [("brand_awareness", 6)]
            narrative := "Users love the polish and word of mouth spreads." }
        failure := some
          { effects := some [("team_morale", -5)]
            narrative := "Unexpected bugs force an emergency rollback." } }
    narrative := "The team rushes to ship a headline feature."
    max_per_turn := some 1 }

/-- The built-in action `marketing_blast` of `actions._fallback_actions`. -/
def marketing_blast : Action :=
  { id := "marketing_blast"
    name := "Launch Marketing Campaign"
    costs := [("balance", 18000)]
    effects := [("brand_awareness", 12), ("users", 600)]
    risk := some
      { success_chance := 0.65
        success := some
          { effects := some [("monthly_revenue", 8000)]
            narrative := "The campaign resonates and signups climb." }
        failure := some
          { effects := some [("brand_awareness", -4)]
            narrative := "The message misses the mark and social media piles on." } }
    narrative := "You greenlight a week-long marketing blitz."
    max_per_turn := some 2 }

/-- The built-in action `investor_pitch` of `actions._fallback_actions`. -/
def investor_pitch : Action :=
  { id := "investor_pitch"
    name := "Pitch to Investors"
    costs := [("balance", 7000)]
    effects := []
    risk := some
      { success_chance := 0.45
        success := some
          { effects := some [("balance", 220000), ("brand_awareness", 8)]
            narrative := "Investors are impressed and wire a new round of funding." }
        failure := some
          { effects := some [("team_morale", -6), ("brand_awareness", -3)]
            narrative := "The questions get hostile and word spreads of the shaky pitch." } }
    narrative := "You polish the deck and pitch to a room of VCs."
    max_per_turn := some 1 }

/-- `actions.ACTION_REGISTRY`: the repository ships no `data/actions.json`,
so `load_actions` falls back to `_fallback_actions()`, in insertion order. -/
def ACTION_REGISTRY : List Action :=
  [ship_feature, marketing_blast, investor_pitch]

/-- `events.GameEvent` (events.py, lines 19-29).  The `apply`/`revert`
callables of the built-in registry are all built by `_build_effect_callable`
over a delta mapping, so they are modelled by the mapping itself
(`revert_effects = none` models a `None` revert callable). -/
structure GameEvent where
  id : String
  name : String
  trigger_chance : Rat
  duration_turns : Int
  apply_effects : List (String × Rat)
  revert_effects : Option (List (String × Rat))
  narrative : String
deriving DecidableEq

/-- `events._build_effect_callable` (events.py, lines 36-45): apply the
captured deltas via `Startup.apply_deltas` unless the mapping is empty. -/
def runEffectCallable (effects : List (String × Rat)) (s : Startup) :
    Startup × Option DeltaError :=
  if effects.isEmpty then (s, none) else s.apply_deltas effects

/-- `events.apply_event_effects` (events.py, lines 206-210): run the apply
callable, then clamp — unless the callable raised. -/
def apply_event_effects (s : Startup) (e : GameEvent) : Startup × Option DeltaError :=
  match runEffectCallable e.apply_effects s with
  | (s2, none) => (s2.clamp_all, none)
  | (s2, some err) => (s2, some err)

/-- Digit-by-digit accumulator for `parsePyInt`. -/
def parseDigitsAux : List Char → Nat → Option Nat
  | [], acc => some acc
  | c :: cs, acc =>
    if c.isDigit then parseDigitsAux cs (10 * acc + (c.toNat - 48)) else none

/-- Parse a nonempty all-digit character list. -/
def parseDigits (cs : List Char) : Option Nat :=
  if cs.isEmpty then none else parseDigitsAux cs 0

/-- Python `int(string)` restricted to an optional sign followed by decimal
digits; `_encode_active_events` only ever produces plain digit payloads, and
any other string is a parse failure just as `int` raises `ValueError`. -/
def parsePyInt (value : String) : Option Int :=
  match value.toList with
  | '-' :: rest => (parseDigits rest).map (fun n => -(n : Int))
  | '+' :: rest => (parseDigits rest).map (fun n => (n : Int))
  | cs => (parseDigits cs).map (fun n => (n : Int))

/-- Python `entry.split(":", 1)` preceded by the `":" in entry` test of
`_decode_active_events`: split at the first colon, with `"0"` as the
remaining-turns payload when there is no colon. -/
def splitFirstColon (entry : String) : String × String :=
  match entry.splitOn ":" with
  | [] => (entry, "0")
  | [x] => (x, "0")
  | x :: rest => (x, String.intercalate ":" rest)

/-- Python dict assignment `decoded[event_id] = turns`: overwrite in place if
the key exists (keeping its position), else append. -/
def upsertActive (l : List (String × Int)) (k : String) (v : Int) :
    List (String × Int) :=
  if l.any (fun p => p.1 = k) then
    l.map (fun p => if p.1 = k then (k, v) else p)
  else l ++ [(k, v)]

/-- `events._decode_active_events` (events.py, lines 182-199): each entry is
split at the first colon, the payload parsed (`ValueError` becomes 0) and
floored at 0, and entries with an empty id are discarded. -/
def decodeActiveEvents (values : List String) : List (String × Int) :=
  values.foldl
    (fun acc entry =>
      let p := splitFirstColon entry
      let turns := max 0 ((parsePyInt p.2).getD 0)
      if p.1 = "" then acc else upsertActive acc p.1 turns)
    []

/-- `events._encode_active_events` (events.py, lines 202-203). -/
def encodeActiveEvents (values : List (String × Int)) : List String :=
  values.map (fun p => p.1 ++ ":" ++ toString (max 0 p.2))

/-- `events._state_adjusted_chance` (events.py, lines 213-231) with
`config.EVENT_PROBABILITY_WEIGHT = 0.35` inlined. -/
def state_adjusted_chance (s : Startup) (e : GameEvent) : Rat :=
  let base := e.trigger_chance * 0.35
  let adjusted :=
    if e.id = "server_crash" then
      base + max 0 (1 - s.product_quality / 100) * 0.25
    else if e.id = "pr_boost" then
      base + (s.brand_awareness / 100) * 0.2
    else if e.id = "talent_poached" then
      base + max 0 ((75 - s.team_morale) / 100) * 0.15
    else if e.id = "customer_uprising" then
      base + max 0 (s.product_quality / 100) * 0.12
    else base
  max 0 (min 1 adjusted)

/-- The `event_id in active and active[event_id] > 0` skip test of
`maybe_trigger_event`. -/
def isActiveIn (active : List (String × Int)) (id : String) : Bool :=
  match active.lookup id with
  | some t => 0 < t
  | none => false

/-- The candidate loop of `events.maybe_trigger_event` (events.py, lines
240-252), iterating the registry in the `sorted(EVENT_REGISTRY)` id order of
the list it is given: skip already-active events, otherwise draw one roll; on
`roll ≤ chance` apply the event (which may raise), record it active, emit its
narrative and stop; on a failed roll move to the next candidate with the
stream advanced. -/
def triggerLoop (s : Startup) (active : List (String × Int)) :
    List Rat → List GameEvent →
    Startup × List (String × Int) × List String × List Rat × Option DeltaError
  | rng, [] => (s, active, [], rng, none)
  | rng, e :: rest =>
    if isActiveIn active e.id then triggerLoop s active rng rest
    else
      let roll := rng.headD 0
      let rng2 := rng.tail
      if roll ≤ state_adjusted_chance s e then
        match apply_event_effects s e with
        | (s2, some err) => (s2, active, [], rng2, some err)
        | (s2, none) =>
          let active2 :=
            if 0 < e.duration_turns then upsertActive active e.id e.duration_turns
            else active
          let narrative := if e.narrative = "" then e.name ++ " occurs." else e.narrative
          (s2, active2, [narrative], rng2, none)
      else triggerLoop s active rng2 rest

/-- `events.maybe_trigger_event` (events.py, lines 234-256): decode the
active list, run the candidate loop, re-encode the active list and clamp.
On an exception inside the loop the state escapes before the re-encode and
final clamp. -/
def maybe_trigger_event (registry : List GameEvent) (s : Startup) (rng : List Rat) :
    Startup × List String × List Rat × Option DeltaError :=
  let active := decodeActiveEvents s.active_events
  match triggerLoop s active rng registry with
  | (s2, active2, narratives, rng2, none) =>
    (({ s2 with active_events := encodeActiveEvents active2 }).clamp_all,
     narratives, rng2, none)
  | (s2, _, narratives, rng2, some err) => (s2, narratives, rng2, some err)

/-- The number of candidates the trigger loop examines — each examined
candidate consumes exactly one RNG draw, and the loop stops at the first
successful roll. -/
def triggerExamineCount (s : Startup) (active : List (String × Int)) :
    List Rat → List GameEvent → Nat
  | _, [] => 0
  | rng, e :: rest =>
    if isActiveIn active e.id then triggerExamineCount s active rng rest
    else if rng.headD 0 ≤ state_adjusted_chance s e then 1
    else 1 + triggerExamineCount s active rng.tail rest

/-- `EVENT_REGISTRY.get(event_id)` lookup. -/
def lookupEvent (registry : List GameEvent) (id : String) : Option GameEvent :=
  registry.find? (fun e => e.id = id)

/-- The per-entry loop of `events.tick_active_events` (events.py, lines
266-277): entries whose event is unknown are dropped; a decremented counter
that is still positive is kept; an expired event runs its revert callable
(if any, possibly raising) followed by a clamp and emits a concluded
message. -/
def tickLoop (registry : List GameEvent) :
    List (String × Int) → Startup → List (String × Int) → List String →
    Startup × List (String × Int) × List String × Option DeltaError
  | [], s, upd, msgs => (s, upd, msgs, none)
  | (id, turns) :: rest, s, upd, msgs =>
    match lookupEvent registry id with
    | none => tickLoop registry rest s upd msgs
    | some e =>
      let remaining := max 0 (turns - 1)
      if 0 < remaining then
        tickLoop registry rest s (upd ++ [(id, remaining)]) msgs
      else
        match e.revert_effects with
        | some rev =>
          match runEffectCallable rev s with
          | (s2, some err) => (s2, upd, msgs, some err)
          | (s2, none) =>
            tickLoop registry rest s2.clamp_all upd (msgs ++ [e.name ++ " has concluded."])
        | none => tickLoop registry rest s upd (msgs ++ [e.name ++ " has concluded."])

/-- `events.tick_active_events` (events.py, lines 259-280): run the loop over
the decoded active entries, then store the re-encoded surviving entries.  On
an exception the state escapes before the re-encode assignment. -/
def tick_active_events (registry : List GameEvent) (s : Startup) :
    Startup × List String × Option DeltaError :=
  match tickLoop registry (decodeActiveEvents s.active_events) s [] [] with
  | (s2, upd, msgs, none) => ({ s2 with active_events := encodeActiveEvents upd }, msgs, none)
  | (s2, _, msgs, some err) => (s2, msgs, some err)

/-- The built-in event `customer_uprising` of `events._fallback_events`. -/
def customer_uprising : GameEvent :=
  { id := "customer_uprising"
    name := "Customer Advocacy Uprising"
    trigger_chance := 0.1
    duration_turns := 2
    apply_effects := [("churn_rate", -0.01), ("brand_awareness", 8)]
    revert_effects := some [("churn_rate", 0.01)]
    narrative := "Power users rally behind you, convincing friends to stick around." }

/-- The built-in event `pr_boost` of `events._fallback_events`. -/
def pr_boost : GameEvent :=
  { id := "pr_boost"
    name := "Glowingly Positive Press"
    trigger_chance := 0.22
    duration_turns := 1
    apply_effects := [("brand_awareness", 10), ("monthly_revenue", 6000), ("users", 450)]
    revert_effects := none
    narrative := "Tech media hails your momentum and signups spike overnight." }

/-- The built-in event `server_crash` of `events._fallback_events`. -/
def server_crash : GameEvent :=
  { id := "server_crash"
    name := "Major Server Crash"
    trigger_chance := 0.18
    duration_turns := 2
    apply_effects := [("monthly_revenue", -12000), ("brand_awareness", -6), ("team_morale", -4)]
    revert_effects := some [("monthly_revenue", 12000), ("team_morale", 2)]
    narrative := "A severe outage shakes user trust and the team scrambles to recover." }

/-- The built-in event `talent_poached` of `events._fallback_events`. -/
def talent_poached : GameEvent :=
  { id := "talent_poached"
    name := "Key Talent Poached"
    trigger_chance := 0.12
    duration_turns := 3
    apply_effects := [("headcount", -2), ("team_morale", -8)]
    revert_effects := some [("team_morale", 4)]
    narrative := "A competitor lures away senior engineers, rattling the remaining team." }

/-- `events.EVENT_REGISTRY`: the repository ships no `data/events.json`, so
`load_events` falls back to `_fallback_events()`, which it returns sorted by
id; the list below is in that ascending id order. -/
def EVENT_REGISTRY : List GameEvent :=
  [customer_uprising, pr_boost, server_crash, talent_poached]

/-- An optional risk branch whose effect keys stay away from the
`active_events` list field (the one attribute that passes `hasattr` but makes
`Startup.apply_deltas` raise mid-loop). -/
def branchSafe : Option RiskBranch → Bool
  | none => true
  | some b =>
    match b.effects with
    | none => true
    | some eff => eff.all (fun kd => kd.1 ≠ "active_events")

/-- All delta mappings of an action (costs, effects, both risk branches)
avoid the `active_events` key.  Every action of the built-in registry
satisfies this. -/
def payloadKeysSafe (a : Action) : Bool :=
  (a.costs ++ a.effects).all (fun kd => kd.1 ≠ "active_events") &&
  (match a.risk with
   | none => true
   | some r => branchSafe r.success && branchSafe r.failure)

/-- A minimal action without a risk block, used to exercise the
no-draw-without-risk path of `apply_action`. -/
def noRiskAction : Action :=
  { id := "noop"
    name := "No Risk"
    costs := []
    effects := []
    risk := none
    narrative := ""
    max_per_turn := none }

section Lemmas

theorem clampIntMin_nonneg (v : Int) : 0 ≤ clampIntMin 0 v := by
  unfold clampIntMin
  split <;> omega

theorem clampIntMin_of_nonneg (v : Int) (h : 0 ≤ v) : clampIntMin 0 v = v := by
  unfold clampIntMin
  split <;> omega

theorem clampRat_lower (lo hi v : Rat) (h : lo ≤ hi) : lo ≤ clampRat lo hi v := by
  show lo ≤ (if hi < (if v < lo then lo else v) then hi else (if v < lo then lo else v))
  split_ifs <;> linarith

theorem clampRat_upper (lo hi v : Rat) (h : lo ≤ hi) : clampRat lo hi v ≤ hi := by
  show (if hi < (if v < lo then lo else v) then hi else (if v < lo then lo else v)) ≤ hi
  split_ifs <;> linarith

theorem clampRat_of_mem (lo hi v : Rat) (h1 : lo ≤ v) (h2 : v ≤ hi) :
    clampRat lo hi v = v := by
  show (if hi < (if v < lo then lo else v) then hi else (if v < lo then lo else v)) = v
  split_ifs <;> linarith

theorem inBounds_clamp_all (s : Startup) : InBounds s.clamp_all := by
  unfold InBounds Startup.clamp_all
  refine ⟨clampIntMin_nonneg _, clampIntMin_nonneg _, clampIntMin_nonneg _,
    clampIntMin_nonneg _, clampIntMin_nonneg _, clampIntMin_nonneg _,
    clampIntMin_nonneg _, ?_, ?_, ?_, ?_, ?_, ?_, ?_, ?_, ?_, ?_⟩ <;>
    first
      | exact clampRat_lower _ _ _ (by norm_num)
      | exact clampRat_upper _ _ _ (by norm_num)

theorem clamp_all_of_inBounds (s : Startup) (h : InBounds s) : s.clamp_all = s := by
  obtain ⟨h1, h2, h3, h4, h5, h6, h7, h8, h9, h10, h11, h12, h13, h14, h15, h16, h17⟩ := h
  cases s
  simp_all only [Startup.clamp_all, Startup.mk.injEq, and_true, and_self,
    clampIntMin_of_nonneg, clampRat_of_mem]

end Lemmas

/-- Claim C9: the clamp step is idempotent — for every startup state,
running `clamp_all` twice yields exactly the state produced by running it
once. -/
theorem clamp_all_idempotent (s : Startup) :
    s.clamp_all.clamp_all = s.clamp_all :=
  clamp_all_of_inBounds _ (inBounds_clamp_all s)

/-- Claim C7: on a state with positive monthly expenses (and the nonnegative
balance every clamped state has) the recomputed runway is exactly the floor
division of balance by monthly expenses; with nonpositive expenses it is 0;
and the finance helper computes 25000 and 5000 into exactly 5 months, with no
revenue term involved. -/
theorem runway_spec :
    (∀ s : Startup, 0 < s.monthly_expenses → 0 ≤ s.balance →
      s.recompute_runway = Int.fdiv s.balance s.monthly_expenses) ∧
    (∀ s : Startup, s.monthly_expenses ≤ 0 → s.recompute_runway = 0) ∧
    (∀ b e : Int, 0 < e → 0 ≤ b → compute_runway b e = Int.fdiv b e) ∧
    compute_runway 25000 5000 = 5 := by
  refine ⟨?_, ?_, ?_, by decide⟩
  · intro s he hb
    unfold Startup.recompute_runway
    rw [if_neg (by omega)]
    exact max_eq_right (Int.fdiv_nonneg hb (le_of_lt he))
  · intro s he
    unfold Startup.recompute_runway
    rw [if_pos he]
  · intro b e he hb
    unfold compute_runway
    rw [max_eq_right (le_of_lt he), max_eq_right hb, if_neg (by omega)]

/-- Witness for C7 at concrete inputs: balance 25000 with expenses 5000 gives
floor-division runway, expenses 0 gives runway 0. -/
theorem runway_spec_witness :
    Startup.recompute_runway
      { defaultStartup with balance := 25000, monthly_expenses := 5000 } =
        Int.fdiv 25000 5000 ∧
    Startup.recompute_runway { defaultStartup with monthly_expenses := 0 } = 0 ∧
    compute_runway 25000 5000 = Int.fdiv 25000 5000 :=
  ⟨runway_spec.1 _ (by decide) (by decide),
   runway_spec.2.1 _ (by decide),
   runway_spec.2.2.1 25000 5000 (by decide) (by decide)⟩

/-- Claim C6: `check_endings` tests its five terminal conditions in the fixed
order bankruptcy, team collapse, triumphant exit, out of runway,
time-based completion, and returns the first condition that matches; every
state with balance ≤ 0 (including exactly 0) yields the Bankruptcy ending,
and when no condition matches it returns nothing. -/
theorem check_endings_priority :
    (∀ s : Startup, s.balance ≤ 0 → check_endings s =
      some ("Bankruptcy",
        "Cash reserves have run dry and operations can no longer continue.")) ∧
    (∀ s : Startup, ¬ s.balance ≤ 0 → s.team_morale ≤ 5 → check_endings s =
      some ("Team Walkout",
        "Morale collapsed and the remaining team resigned en masse.")) ∧
    (∀ s : Startup, ¬ s.balance ≤ 0 → ¬ s.team_morale ≤ 5 →
      5000000 ≤ s.compute_company_value → 75 ≤ s.brand_awareness →
      check_endings s =
      some ("Triumphant Exit",
        "Investors line up to acquire your thriving company at a stellar valuation.")) ∧
    (∀ s : Startup, ¬ s.balance ≤ 0 → ¬ s.team_morale ≤ 5 →
      ¬ (5000000 ≤ s.compute_company_value ∧ 75 ≤ s.brand_awareness) →
      s.recompute_runway ≤ 1 → s.monthly_revenue < s.monthly_expenses →
      s.balance < 25000 →
      check_endings s =
      some ("Out of Runway",
        "Runway has dwindled to nothing and additional funding could not be secured.")) ∧
    (∀ s : Startup, ¬ s.balance ≤ 0 → ¬ s.team_morale ≤ 5 →
      ¬ (5000000 ≤ s.compute_company_value ∧ 75 ≤ s.brand_awareness) →
      ¬ (s.recompute_runway ≤ 1 ∧ s.monthly_revenue < s.monthly_expenses ∧
          s.balance < 25000) →
      36 < s.turn →
      check_endings s =
      some ("IPO Ready",
        "Three years of steady execution culminate in a confident march towards an IPO.")) ∧
    (∀ s : Startup, ¬ s.balance ≤ 0 → ¬ s.team_morale ≤ 5 →
      ¬ (5000000 ≤ s.compute_company_value ∧ 75 ≤ s.brand_awareness) →
      ¬ (s.recompute_runway ≤ 1 ∧ s.monthly_revenue < s.monthly_expenses ∧
          s.balance < 25000) →
      ¬ 36 < s.turn → check_endings s = none) := by
  refine ⟨?_, ?_, ?_, ?_, ?_, ?_⟩
  · intro s h1
    unfold check_endings
    rw [if_pos h1]
  · intro s h1 h2
    unfold check_endings
    rw [if_neg h1, if_pos h2]
  · intro s h1 h2 h3 h4
    unfold check_endings
    rw [if_neg h1, if_neg h2, if_pos ⟨h3, h4⟩]
  · intro s h1 h2 h3 h4 h5 h6
    unfold check_endings
    rw [if_neg h1, if_neg h2, if_neg h3, if_pos ⟨h4, h5, h6⟩]
  · intro s h1 h2 h3 h4 h5
    unfold check_endings
    rw [if_neg h1, if_neg h2, if_neg h3, if_neg h4, if_pos h5]
  · intro s h1 h2 h3 h4 h5
    unfold check_endings
    rw [if_neg h1, if_neg h2, if_neg h3, if_neg h4, if_neg h5]

/-- Witness for C6: zero balance yields the Bankruptcy ending, and the
default baseline state (which matches no condition) yields no ending. -/
theorem check_endings_priority_witness :
    check_endings { defaultStartup with balance := 0 } =
      some ("Bankruptcy",
        "Cash reserves have run dry and operations can no longer continue.") ∧
    check_endings defaultStartup = none :=
  ⟨check_endings_priority.1 _ (by decide),
   check_endings_priority.2.2.2.2.2 defaultStartup (by decide)
     (by with_unfolding_all decide) (by with_unfolding_all decide)
     (by decide) (by decide)⟩

/-- Claim C10: for every state whose bounded fields already satisfy their
declared bounds, rebuilding the state from its snapshot reproduces it in
every field, `turn`, `rng_seed` and `active_events` included. -/
theorem snapshot_roundtrip (s : Startup) (h : InBounds s) :
    Startup.from_snapshot s.snapshot = s := by
  obtain ⟨b, mr, me, u, gr, cr, pq, ba, tm, hc, d, t, rs, ae⟩ := s
  unfold Startup.from_snapshot Startup.snapshot
  dsimp only
  have hc1 : (⟨b, mr, me, u, gr, cr, pq, ba, tm, hc, d, t, rs, []⟩ : Startup).clamp_all =
      ⟨b, mr, me, u, gr, cr, pq, ba, tm, hc, d, t, rs, []⟩ :=
    clamp_all_of_inBounds _ (by exact h)
  rw [hc1]
  dsimp only
  exact clamp_all_of_inBounds _ (by exact h)

/-- Witness for C10: the default baseline state survives the snapshot round
trip unchanged. -/
theorem snapshot_roundtrip_witness :
    Startup.from_snapshot defaultStartup.snapshot = defaultStartup :=
  snapshot_roundtrip defaultStartup (by with_unfolding_all decide)

/-- Claim C4: the risk branch of `apply_action` is resolved by one strict
comparison of the drawn roll against `success_chance` — the success branch
runs exactly for roll < chance, a roll equal to the chance lands in the
failure branch, a chance of 0.0 sends every nonnegative roll to the failure
branch, and concretely `investor_pitch` (chance 0.45) resolved at a draw of
exactly 0.45 produces the failure narrative. -/
theorem risk_strict_comparison :
    (∀ (s : Startup) (r : RiskSpec) (roll : Rat), roll < r.success_chance →
      resolveRisk s r roll = applyRiskBranch s r.success) ∧
    (∀ (s : Startup) (r : RiskSpec) (roll : Rat), r.success_chance ≤ roll →
      resolveRisk s r roll = applyRiskBranch s r.failure) ∧
    (∀ (s : Startup) (r : RiskSpec),
      resolveRisk s r r.success_chance = applyRiskBranch s r.failure) ∧
    (∀ (s : Startup) (r : RiskSpec) (roll : Rat), r.success_chance = 0 → 0 ≤ roll →
      resolveRisk s r roll = applyRiskBranch s r.failure) ∧
    (apply_action ACTION_REGISTRY defaultStartup "investor_pitch" [0.45]).2.2.toOption =
      some "You polish the deck and pitch to a room of VCs. The questions get hostile and word spreads of the shaky pitch." := by
  have hs : ∀ (s : Startup) (r : RiskSpec) (roll : Rat), roll < r.success_chance →
      resolveRisk s r roll = applyRiskBranch s r.success := by
    intro s r roll hlt
    unfold resolveRisk
    rw [if_pos]
    unfold riskBranchKeySuccess
    exact decide_eq_true hlt
  have hf : ∀ (s : Startup) (r : RiskSpec) (roll : Rat), r.success_chance ≤ roll →
      resolveRisk s r roll = applyRiskBranch s r.failure := by
    intro s r roll hle
    unfold resolveRisk
    rw [if_neg]
    unfold riskBranchKeySuccess
    simp only [Bool.not_eq_true, decide_eq_false_iff_not, not_lt]
    exact hle
  refine ⟨hs, hf, fun s r => hf s r _ le_rfl,
    fun s r roll h0 hroll => hf s r roll (h0.le.trans hroll),
    by with_unfolding_all decide⟩

/-- Witness for C4 at concrete risk data: a roll strictly below the chance
picks the success branch, a roll equal to the chance picks the failure
branch, and a chance of zero picks the failure branch. -/
theorem risk_strict_comparison_witness :
    resolveRisk defaultStartup ⟨0.5, none, none⟩ 0.25 =
      applyRiskBranch defaultStartup (RiskSpec.mk 0.5 none none).success ∧
    resolveRisk defaultStartup ⟨0.5, none, none⟩ 0.5 =
      applyRiskBranch defaultStartup (RiskSpec.mk 0.5 none none).failure ∧
    resolveRisk defaultStartup ⟨0, none, none⟩ 0.25 =
      applyRiskBranch defaultStartup (RiskSpec.mk 0 none none).failure :=
  ⟨risk_strict_comparison.1 _ _ _ (by with_unfolding_all decide),
   risk_strict_comparison.2.1 _ _ _ (by with_unfolding_all decide),
   risk_strict_comparison.2.2.2.1 _ _ _ rfl (by with_unfolding_all decide)⟩

/-- An attribute that fails the `hasattr` test makes the loop body raise the
unknown-attribute `KeyError`. -/
theorem applyOneDelta_unknown (s : Startup) (k : String) (d : Rat)
    (h : hasAttr k = false) :
    applyOneDelta s k d = .error (.unknownField k) := by
  unfold hasAttr at h
  simp only [Bool.or_eq_false_iff, decide_eq_false_iff_not] at h
  obtain ⟨⟨⟨⟨⟨⟨⟨⟨⟨⟨⟨⟨⟨h1, h2⟩, h3⟩, h4⟩, h5⟩, h6⟩, h7⟩, h8⟩, h9⟩, h10⟩,
    h11⟩, h12⟩, h13⟩, h14⟩ := h
  unfold applyOneDelta
  rw [if_neg h1, if_neg h2, if_neg h3, if_neg h4, if_neg h10, if_neg h11,
    if_neg h12, if_neg h5, if_neg h6, if_neg h7, if_neg h8, if_neg h9,
    if_neg h13, if_neg h14]

/-- A deltas list containing a key that fails `hasattr` makes the
`apply_deltas` loop stop with an error. -/
theorem applyDeltasLoop_err_of_bad (s : Startup) (deltas : List (String × Rat))
    (h : ∃ kd ∈ deltas, hasAttr kd.1 = false) :
    (applyDeltasLoop s deltas).2.isSome = true := by
  induction deltas generalizing s with
  | nil =>
    obtain ⟨kd, hm, _⟩ := h
    simp at hm
  | cons head rest ih =>
    obtain ⟨kd, hm, hbad⟩ := h
    simp only [List.mem_cons] at hm
    unfold applyDeltasLoop
    rcases hm with rfl | hm
    · rw [applyOneDelta_unknown _ _ _ hbad]
      rfl
    · cases hae : applyOneDelta s head.1 head.2 with
      | ok s2 => exact ih s2 ⟨kd, hm, hbad⟩
      | error e => rfl

/-- Claim C5 (amended): `Startup.apply_deltas` does fail on a mapping with an
unknown key, but it is not atomic — the deltas preceding the first failing
key are already applied and stay applied, so the state is unchanged only when
the unknown key is the first entry; the pre-validating wrapper
`actions._apply_deltas` is atomic for unknown keys at any position. -/
theorem apply_deltas_unknown_field :
    (∀ (s : Startup) (deltas : List (String × Rat)),
      (∃ kd ∈ deltas, hasAttr kd.1 = false) →
      (Startup.apply_deltas s deltas).2.isSome = true) ∧
    (∀ (s : Startup) (k : String) (d : Rat) (rest : List (String × Rat)),
      hasAttr k = false →
      Startup.apply_deltas s ((k, d) :: rest) = (s, some (DeltaError.unknownField k))) ∧
    (∀ (s : Startup) (deltas : List (String × Rat)),
      (∃ kd ∈ deltas, hasAttr kd.1 = false) →
      ∃ k, hasAttr k = false ∧
        actionsApplyDeltas s deltas = (s, some (DeltaError.unknownField k))) := by
  refine ⟨?_, ?_, ?_⟩
  · intro s deltas h
    have hloop := applyDeltasLoop_err_of_bad s deltas h
    unfold Startup.apply_deltas
    rcases heq : applyDeltasLoop s deltas with ⟨s2, oe⟩
    cases oe with
    | none => rw [heq] at hloop; simp at hloop
    | some e => rfl
  · intro s k d rest h
    unfold Startup.apply_deltas applyDeltasLoop
    rw [applyOneDelta_unknown _ _ _ h]
  · intro s deltas h
    obtain ⟨kd, hm, hbad⟩ := h
    have hfind : (deltas.find? (fun kd => !hasAttr kd.1)).isSome := by
      rw [List.find?_isSome]
      exact ⟨kd, hm, by simp [hbad]⟩
    obtain ⟨kd0, hk0⟩ := Option.isSome_iff_exists.mp hfind
    have hbad0 := List.find?_some hk0
    refine ⟨kd0.1, by simpa using hbad0, ?_⟩
    unfold actionsApplyDeltas
    rw [hk0]

/-- Witness for C5 (amended), at concrete inputs: an unknown key in second
position still errors; an unknown key in first position leaves the state
unchanged; the wrapper leaves the state unchanged with the key in second
position. -/
theorem apply_deltas_unknown_field_witness :
    (Startup.apply_deltas defaultStartup [("balance", -100), ("bogus", 1)]).2.isSome = true ∧
    Startup.apply_deltas defaultStartup [("bogus", 1), ("balance", -100)] =
      (defaultStartup, some (DeltaError.unknownField "bogus")) ∧
    (∃ k, hasAttr k = false ∧
      actionsApplyDeltas defaultStartup [("balance", -100), ("bogus", 1)] =
        (defaultStartup, some (DeltaError.unknownField k))) :=
  ⟨apply_deltas_unknown_field.1 _ _ ⟨("bogus", 1), by simp, by decide⟩,
   apply_deltas_unknown_field.2.1 _ "bogus" 1 _ (by decide),
   apply_deltas_unknown_field.2.2 _ _ ⟨("bogus", 1), by simp, by decide⟩⟩

/-- Counterexample for C5: a deltas mapping whose unknown key comes second
makes `Startup.apply_deltas` fail with the unknown-field error, yet the state
is changed — the preceding balance delta was already applied. -/
theorem apply_deltas_not_atomic_cex :
    (Startup.apply_deltas defaultStartup [("balance", -100), ("bogus", 1)]).2 =
      some (DeltaError.unknownField "bogus") ∧
    ¬ (Startup.apply_deltas defaultStartup [("balance", -100), ("bogus", 1)]).1 =
      defaultStartup := by
  with_unfolding_all decide

/-- The tick loop keeps the state within bounds: each step either leaves the
numeric state untouched or replaces it with a clamped state. -/
theorem tickLoop_inBounds (registry : List GameEvent) (entries : List (String × Int)) :
    ∀ (s : Startup) (upd : List (String × Int)) (msgs : List String), InBounds s →
    (tickLoop registry entries s upd msgs).2.2.2 = none →
    InBounds (tickLoop registry entries s upd msgs).1 := by
  induction entries with
  | nil =>
    intro s upd msgs hs _
    exact hs
  | cons head rest ih =>
    obtain ⟨id, turns⟩ := head
    intro s upd msgs hs herr
    unfold tickLoop at herr ⊢
    cases hl : lookupEvent registry id with
    | none =>
      rw [hl] at herr
      exact ih s upd msgs hs herr
    | some e =>
      rw [hl] at herr
      dsimp only at herr ⊢
      split_ifs at herr ⊢ with hrem
      · exact ih s (upd ++ [(id, max 0 (turns - 1))]) msgs hs herr
      · cases hrev : e.revert_effects with
        | none =>
          rw [hrev] at herr
          exact ih s upd (msgs ++ [e.name ++ " has concluded."]) hs herr
        | some rev =>
          rw [hrev] at herr
          dsimp only at herr ⊢
          rcases hrc : runEffectCallable rev s with ⟨s2, oe⟩
          rw [hrc] at herr
          cases oe with
          | some err => simp at herr
          | none =>
            exact ih s2.clamp_all upd (msgs ++ [e.name ++ " has concluded."])
              (inBounds_clamp_all s2) herr

/-- Claim C1: after each of the public state-changing operations completes
without raising — `Startup.apply_deltas`, `actions.apply_action`,
`events.maybe_trigger_event`, `events.tick_active_events` — every bounded
field of the resulting state lies within its declared range (the tick needs
the incoming state in bounds, which every reachable state is, because it only
clamps when an expiring event ran its revert; the other three end in an
unconditional clamp). -/
theorem ops_preserve_bounds :
    (∀ (s : Startup) (deltas : List (String × Rat)) (s2 : Startup),
      Startup.apply_deltas s deltas = (s2, none) → InBounds s2) ∧
    (∀ (registry : List Action) (s : Startup) (aid : String) (rng : List Rat)
      (s2 : Startup) (rng2 : List Rat) (txt : String),
      apply_action registry s aid rng = (s2, rng2, .ok txt) → InBounds s2) ∧
    (∀ (registry : List GameEvent) (s : Startup) (rng : List Rat)
      (s2 : Startup) (narr : List String) (rng2 : List Rat),
      maybe_trigger_event registry s rng = (s2, narr, rng2, none) → InBounds s2) ∧
    (∀ (registry : List GameEvent) (s : Startup) (s2 : Startup) (msgs : List String),
      InBounds s → tick_active_events registry s = (s2, msgs, none) → InBounds s2) := by
  refine ⟨?_, ?_, ?_, ?_⟩
  · intro s deltas s2 h
    unfold Startup.apply_deltas at h
    rcases heq : applyDeltasLoop s deltas with ⟨s3, oe⟩
    rw [heq] at h
    cases oe with
    | none =>
      simp only [Prod.mk.injEq] at h
      rw [← h.1]
      exact inBounds_clamp_all s3
    | some e => simp at h
  · intro registry s aid rng s2 rng2 txt h
    unfold apply_action at h
    cases hl : lookupAction registry aid with
    | none =>
      rw [hl] at h
      simp at h
    | some a =>
      rw [hl] at h
      dsimp only at h
      rcases hc : applyCosts s a with ⟨s1, oc⟩
      rw [hc] at h
      cases oc with
      | some e => simp at h
      | none =>
        dsimp only at h
        rcases he : actionsApplyDeltas s1 a.effects with ⟨se, oe⟩
        rw [he] at h
        cases oe with
        | some e => simp at h
        | none =>
          dsimp only at h
          cases hr : a.risk with
          | none =>
            rw [hr] at h
            dsimp only at h
            simp only [Prod.mk.injEq] at h
            rw [← h.1]
            exact inBounds_clamp_all se
          | some r =>
            rw [hr] at h
            dsimp only at h
            rcases hrr : resolveRisk se r (rng.headD 0) with ⟨s3, oe2, outc⟩
            rw [hrr] at h
            cases oe2 with
            | some e => simp at h
            | none =>
              simp only [Prod.mk.injEq] at h
              rw [← h.1]
              exact inBounds_clamp_all s3
  · intro registry s rng s2 narr rng2 h
    unfold maybe_trigger_event at h
    dsimp only at h
    rcases heq : triggerLoop s (decodeActiveEvents s.active_events) rng registry with
      ⟨s3, act2, narr2, rng3, oe⟩
    rw [heq] at h
    cases oe with
    | none =>
      simp only [Prod.mk.injEq] at h
      rw [← h.1]
      exact inBounds_clamp_all _
    | some e => simp at h
  · intro registry s s2 msgs hs h
    unfold tick_active_events at h
    rcases heq : tickLoop registry (decodeActiveEvents s.active_events) s [] [] with
      ⟨s3, upd, msgs3, oe⟩
    rw [heq] at h
    cases oe with
    | none =>
      have hb := tickLoop_inBounds registry (decodeActiveEvents s.active_events) s [] [] hs
        (by rw [heq])
      rw [heq] at hb
      simp only [Prod.mk.injEq] at h
      rw [← h.1]
      exact hb
    | some e => simp at h

/-- Witness for C1: each of the four operations run on a concrete in-bounds
state (a delta that would drive the balance negative, a successful marketing
action, an event trigger with a forced roll, and a tick that expires
`server_crash`) lands in bounds. -/
theorem ops_preserve_bounds_witness :
    InBounds ((Startup.apply_deltas defaultStartup [("balance", -600000)]).1) ∧
    InBounds ((apply_action ACTION_REGISTRY defaultStartup "marketing_blast" [(1:Rat)/2]).1) ∧
    InBounds ((maybe_trigger_event EVENT_REGISTRY defaultStartup [0]).1) ∧
    InBounds ((tick_active_events EVENT_REGISTRY
      { defaultStartup with active_events := ["server_crash:1"] }).1) := by
  refine ⟨ops_preserve_bounds.1 defaultStartup [("balance", -600000)] _ ?_,
    ops_preserve_bounds.2.1 ACTION_REGISTRY defaultStartup "marketing_blast"
      [(1:Rat)/2] _ []
      "You greenlight a week-long marketing blitz. The campaign resonates and signups climb."
      ?_,
    ops_preserve_bounds.2.2.1 EVENT_REGISTRY defaultStartup [0] _
      ["Power users rally behind you, convincing friends to stick around."] [] ?_,
    ops_preserve_bounds.2.2.2 EVENT_REGISTRY
      { defaultStartup with active_events := ["server_crash:1"] } _
      ["Major Server Crash has concluded."]
      (by with_unfolding_all decide) ?_⟩ <;>
  with_unfolding_all rfl

theorem clamp_balance_nonneg (t : Startup) : 0 ≤ t.clamp_all.balance :=
  clampIntMin_nonneg t.balance

/-- Each loop entry of `Startup.apply_deltas` either succeeds, targets the
`active_events` list, or fails the `hasattr` test. -/
theorem applyOneDelta_cases (s : Startup) (k : String) (d : Rat) :
    (∃ s2, applyOneDelta s k d = .ok s2) ∨
    k = "active_events" ∨ hasAttr k = false := by
  by_cases h1 : k = "balance"
  · exact .inl ⟨_, by unfold applyOneDelta; rw [if_pos h1]⟩
  by_cases h2 : k = "monthly_revenue"
  · exact .inl ⟨_, by unfold applyOneDelta; rw [if_neg h1, if_pos h2]⟩
  by_cases h3 : k = "monthly_expenses"
  · exact .inl ⟨_, by unfold applyOneDelta; rw [if_neg h1, if_neg h2, if_pos h3]⟩
  by_cases h4 : k = "users"
  · exact .inl ⟨_, by unfold applyOneDelta; rw [if_neg h1, if_neg h2, if_neg h3, if_pos h4]⟩
  by_cases h5 : k = "headcount"
  · exact .inl ⟨_, by unfold applyOneDelta; rw [if_neg h1, if_neg h2, if_neg h3, if_neg h4, if_pos h5]⟩
  by_cases h6 : k = "debt"
  · exact .inl ⟨_, by unfold applyOneDelta; rw [if_neg h1, if_neg h2, if_neg h3, if_neg h4, if_neg h5, if_pos h6]⟩
  by_cases h7 : k = "turn"
  · exact .inl ⟨_, by unfold applyOneDelta; rw [if_neg h1, if_neg h2, if_neg h3, if_neg h4, if_neg h5, if_neg h6, if_pos h7]⟩
  by_cases h8 : k = "growth_rate"
  · exact .inl ⟨_, by unfold applyOneDelta; rw [if_neg h1, if_neg h2, if_neg h3, if_neg h4, if_neg h5, if_neg h6, if_neg h7, if_pos h8]⟩
  by_cases h9 : k = "churn_rate"
  · exact .inl ⟨_, by unfold applyOneDelta; rw [if_neg h1, if_neg h2, if_neg h3, if_neg h4, if_neg h5, if_neg h6, if_neg h7, if_neg h8, if_pos h9]⟩
  by_cases h10 : k = "product_quality"
  · exact .inl ⟨_, by unfold applyOneDelta; rw [if_neg h1, if_neg h2, if_neg h3, if_neg h4, if_neg h5, if_neg h6, if_neg h7, if_neg h8, if_neg h9, if_pos h10]⟩
  by_cases h11 : k = "brand_awareness"
  · exact .inl ⟨_, by unfold applyOneDelta; rw [if_neg h1, if_neg h2, if_neg h3, if_neg h4, if_neg h5, if_neg h6, if_neg h7, if_neg h8, if_neg h9, if_neg h10, if_pos h11]⟩
  by_cases h12 : k = "team_morale"
  · exact .inl ⟨_, by unfold applyOneDelta; rw [if_neg h1, if_neg h2, if_neg h3, if_neg h4, if_neg h5, if_neg h6, if_neg h7, if_neg h8, if_neg h9, if_neg h10, if_neg h11, if_pos h12]⟩
  by_cases h13 : k = "rng_seed"
  · exact .inl ⟨_, by unfold applyOneDelta; rw [if_neg h1, if_neg h2, if_neg h3, if_neg h4, if_neg h5, if_neg h6, if_neg h7, if_neg h8, if_neg h9, if_neg h10, if_neg h11, if_neg h12, if_pos h13]⟩
  by_cases h14 : k = "active_events"
  · exact .inr (.inl h14)
  refine .inr (.inr ?_)
  unfold hasAttr
  rw [decide_eq_false h1, decide_eq_false h2, decide_eq_false h3, decide_eq_false h4,
    decide_eq_false h8, decide_eq_false h9, decide_eq_false h10, decide_eq_false h11,
    decide_eq_false h12, decide_eq_false h5, decide_eq_false h6, decide_eq_false h7,
    decide_eq_false h13, decide_eq_false h14]
  rfl

/-- A deltas list whose keys all pass `hasattr` and avoid `active_events`
runs the `apply_deltas` loop to completion without an error. -/
theorem applyDeltasLoop_ok_of_safe (deltas : List (String × Rat))
    (h : ∀ kd ∈ deltas, hasAttr kd.1 = true ∧ kd.1 ≠ "active_events") :
    ∀ s, ∃ s2, applyDeltasLoop s deltas = (s2, none) := by
  induction deltas with
  | nil => exact fun s => ⟨s, rfl⟩
  | cons head rest ih =>
    intro s
    obtain ⟨hattr, hne⟩ := h head (by simp)
    rcases applyOneDelta_cases s head.1 head.2 with ⟨s2, hs2⟩ | hae | hfalse
    · obtain ⟨s3, hs3⟩ := ih (fun kd hm => h kd (by simp [hm])) s2
      refine ⟨s3, ?_⟩
      unfold applyDeltasLoop
      rw [hs2]
      exact hs3
    · exact absurd hae hne
    · rw [hattr] at hfalse
      simp at hfalse

/-- On an all-safe deltas list `Startup.apply_deltas` succeeds and its result
is a clamped state. -/
theorem apply_deltas_ok_of_safe (s : Startup) (deltas : List (String × Rat))
    (h : ∀ kd ∈ deltas, hasAttr kd.1 = true ∧ kd.1 ≠ "active_events") :
    ∃ t : Startup, Startup.apply_deltas s deltas = (t.clamp_all, none) := by
  obtain ⟨s2, hs2⟩ := applyDeltasLoop_ok_of_safe deltas h s
  refine ⟨s2, ?_⟩
  unfold Startup.apply_deltas
  rw [hs2]

/-- `actions._apply_deltas` exits with either the untouched incoming state
(validation failure or empty mapping) or a clamped state, provided no key
names `active_events`. -/
theorem actionsApplyDeltas_exit (s : Startup) (deltas : List (String × Rat))
    (hsafe : ∀ kd ∈ deltas, kd.1 ≠ "active_events") :
    (actionsApplyDeltas s deltas).1 = s ∨
    ∃ t : Startup, (actionsApplyDeltas s deltas).1 = t.clamp_all := by
  unfold actionsApplyDeltas
  cases hf : deltas.find? (fun kd => !hasAttr kd.1) with
  | some kd => exact .inl rfl
  | none =>
    by_cases he : deltas.isEmpty = true
    · rw [if_pos he]
      exact .inl rfl
    · rw [if_neg he]
      have hall : ∀ kd ∈ deltas, hasAttr kd.1 = true := by
        intro kd hm
        have hnone := List.find?_eq_none.mp hf kd hm
        simpa using hnone
      obtain ⟨t, ht⟩ := apply_deltas_ok_of_safe s deltas
        (fun kd hm => ⟨hall kd hm, hsafe kd hm⟩)
      rw [ht]
      exact .inr ⟨t, rfl⟩

/-- The post-affordability cost application exits with the incoming state or
a clamped state. -/
theorem applyCostsGo_exit (s : Startup) (a : Action)
    (hsafe : ∀ kd ∈ a.costs, kd.1 ≠ "active_events") :
    (applyCostsGo s a).1 = s ∨
    ∃ t : Startup, (applyCostsGo s a).1 = t.clamp_all := by
  unfold applyCostsGo
  have hmap : ∀ kd ∈ a.costs.map (fun kd => (kd.1, -kd.2)), kd.1 ≠ "active_events" := by
    intro kd hm
    obtain ⟨kd0, hm0, rfl⟩ := List.mem_map.mp hm
    exact hsafe kd0 hm0
  have hexit := actionsApplyDeltas_exit s (a.costs.map (fun kd => (kd.1, -kd.2))) hmap
  rcases had : actionsApplyDeltas s (a.costs.map (fun kd => (kd.1, -kd.2))) with ⟨s2, oe⟩
  rw [had] at hexit ⊢
  cases oe with
  | some e =>
    rcases hexit with h | ⟨t, h⟩
    · exact .inl h
    · exact .inr ⟨t, h⟩
  | none =>
    rcases hexit with h | ⟨t, h⟩
    · exact .inl h
    · exact .inr ⟨t, h⟩

/-- `actions._apply_costs` exits with the incoming state or a clamped
state. -/
theorem applyCosts_exit (s : Startup) (a : Action)
    (hsafe : ∀ kd ∈ a.costs, kd.1 ≠ "active_events") :
    (applyCosts s a).1 = s ∨
    ∃ t : Startup, (applyCosts s a).1 = t.clamp_all := by
  unfold applyCosts
  by_cases he : a.costs.isEmpty = true
  · rw [if_pos he]
    exact .inl rfl
  · rw [if_neg he]
    cases hl : a.costs.lookup "balance" with
    | none => exact applyCostsGo_exit s a hsafe
    | some c =>
      dsimp only
      by_cases hlt : (s.balance : Rat) < c
      · rw [if_pos hlt]
        exact .inl rfl
      · rw [if_neg hlt]
        exact applyCostsGo_exit s a hsafe

/-- A safe risk branch exits with the incoming state or a clamped state. -/
theorem applyRiskBranch_exit (s : Startup) (branch : Option RiskBranch)
    (hsafe : branchSafe branch = true) :
    (applyRiskBranch s branch).1 = s ∨
    ∃ t : Startup, (applyRiskBranch s branch).1 = t.clamp_all := by
  unfold applyRiskBranch
  cases branch with
  | none => exact .inl rfl
  | some b =>
    dsimp only
    unfold branchSafe at hsafe
    dsimp only at hsafe
    cases heff : b.effects with
    | none => exact .inl rfl
    | some eff =>
      rw [heff] at hsafe
      dsimp only
      have hsafe2 : eff.all (fun kd => decide (kd.1 ≠ "active_events")) = true := hsafe
      have hs : ∀ kd ∈ eff, kd.1 ≠ "active_events" := by
        intro kd hm
        have := List.all_eq_true.mp hsafe2 kd hm
        simpa using this
      have hexit := actionsApplyDeltas_exit s eff hs
      rcases had : actionsApplyDeltas s eff with ⟨s2, oe⟩
      rw [had] at hexit
      cases oe with
      | some e =>
        rcases hexit with h | ⟨t, h⟩
        · exact .inl h
        · exact .inr ⟨t, h⟩
      | none =>
        rcases hexit with h | ⟨t, h⟩
        · exact .inl h
        · exact .inr ⟨t, h⟩

/-- Claim C3: for every action whose costs declare a balance cost, a state
whose balance is strictly below that cost makes `apply_action` fail with the
insufficient-funds error leaving the state and RNG stream untouched; and on a
registry whose actions never aim a delta at the `active_events` list (true of
the built-in registry), `apply_action` never exits — successfully or not —
with a negative balance from a state whose balance was nonnegative. -/
theorem apply_action_affordability :
    (∀ (registry : List Action) (s : Startup) (aid : String) (rng : List Rat)
      (a : Action) (c : Rat),
      lookupAction registry aid = some a →
      a.costs.lookup "balance" = some c →
      (s.balance : Rat) < c →
      apply_action registry s aid rng = (s, rng, .error .insufficientFunds)) ∧
    (∀ (registry : List Action) (s : Startup) (aid : String) (rng : List Rat),
      (∀ a ∈ registry, payloadKeysSafe a = true) →
      0 ≤ s.balance →
      0 ≤ (apply_action registry s aid rng).1.balance) := by
  constructor
  · intro registry s aid rng a c hl hlk hlt
    have hc : applyCosts s a = (s, some .insufficientFunds) := by
      unfold applyCosts
      have hne : ¬ a.costs.isEmpty = true := by
        cases hcs : a.costs with
        | nil => rw [hcs] at hlk; simp [List.lookup] at hlk
        | cons x xs => simp [hcs]
      rw [if_neg hne, hlk]
      dsimp only
      rw [if_pos hlt]
    unfold apply_action
    rw [hl]
    dsimp only
    rw [hc]
  · intro registry s aid rng hsafe hb
    unfold apply_action
    cases hl : lookupAction registry aid with
    | none => exact hb
    | some a =>
      have ha : a ∈ registry := List.mem_of_find?_eq_some hl
      have hpayload := hsafe a ha
      unfold payloadKeysSafe at hpayload
      rw [Bool.and_eq_true] at hpayload
      obtain ⟨hce, hrisk⟩ := hpayload
      have hcosts : ∀ kd ∈ a.costs, kd.1 ≠ "active_events" := by
        intro kd hm
        have := List.all_eq_true.mp hce kd (List.mem_append_left _ hm)
        simpa using this
      have heffects : ∀ kd ∈ a.effects, kd.1 ≠ "active_events" := by
        intro kd hm
        have := List.all_eq_true.mp hce kd (List.mem_append_right _ hm)
        simpa using this
      dsimp only
      have hexitc := applyCosts_exit s a hcosts
      rcases hc : applyCosts s a with ⟨s1, oc⟩
      rw [hc] at hexitc
      have hb1 : 0 ≤ s1.balance := by
        rcases hexitc with h | ⟨t, h⟩
        · have h2 : s1 = s := h
          rw [h2]
          exact hb
        · have h2 : s1 = t.clamp_all := h
          rw [h2]
          exact clamp_balance_nonneg t
      cases oc with
      | some e => exact hb1
      | none =>
        dsimp only
        have hexite := actionsApplyDeltas_exit s1 a.effects heffects
        rcases he : actionsApplyDeltas s1 a.effects with ⟨s2, oe⟩
        rw [he] at hexite
        have hb2 : 0 ≤ s2.balance := by
          rcases hexite with h | ⟨t, h⟩
          · have h2 : s2 = s1 := h
            rw [h2]
            exact hb1
          · have h2 : s2 = t.clamp_all := h
            rw [h2]
            exact clamp_balance_nonneg t
        cases oe with
        | some e => exact hb2
        | none =>
          dsimp only
          cases hr : a.risk with
          | none => exact clamp_balance_nonneg s2
          | some r =>
            dsimp only
            rw [hr] at hrisk
            rw [Bool.and_eq_true] at hrisk
            have hbr : branchSafe
                (if riskBranchKeySuccess (rng.headD 0) r.success_chance
                 then r.success else r.failure) = true := by
              cases hkb : riskBranchKeySuccess (rng.headD 0) r.success_chance
              · simpa using hrisk.2
              · simpa using hrisk.1
            have hexitr := applyRiskBranch_exit s2 _ hbr
            rcases hrr : resolveRisk s2 r (rng.headD 0) with ⟨s3, oe2, outc⟩
            have hrr2 : applyRiskBranch s2
                (if riskBranchKeySuccess (rng.headD 0) r.success_chance
                 then r.success else r.failure) = (s3, oe2, outc) := hrr
            rw [hrr2] at hexitr
            have hb3 : 0 ≤ s3.balance := by
              rcases hexitr with h | ⟨t, h⟩
              · have h2 : s3 = s2 := h
                rw [h2]
                exact hb2
              · have h2 : s3 = t.clamp_all := h
                rw [h2]
                exact clamp_balance_nonneg t
            cases oe2 with
            | some e => exact hb3
            | none => exact clamp_balance_nonneg s3

/-- Witness for C3: with only 100 in the bank, `ship_feature` (cost 25000)
fails with insufficient funds and changes nothing, and running
`investor_pitch` on the default state keeps the balance nonnegative. -/
theorem apply_action_affordability_witness :
    apply_action ACTION_REGISTRY { defaultStartup with balance := 100 }
      "ship_feature" [] =
      ({ defaultStartup with balance := 100 }, [], .error .insufficientFunds) ∧
    0 ≤ (apply_action ACTION_REGISTRY defaultStartup "investor_pitch" [0.9]).1.balance :=
  ⟨apply_action_affordability.1 ACTION_REGISTRY _ "ship_feature" [] ship_feature
      25000 (by with_unfolding_all rfl) (by with_unfolding_all rfl)
      (by with_unfolding_all decide),
   apply_action_affordability.2 ACTION_REGISTRY defaultStartup "investor_pitch"
      [0.9] (by with_unfolding_all decide) (by decide)⟩

/-- Counterexample for C8: on the default state (no active events) with four
draws of 0.9, the trigger phase examines all four registry events and
consumes all four draws — not exactly one. -/
theorem trigger_single_draw_cex :
    (maybe_trigger_event EVENT_REGISTRY defaultStartup [0.9, 0.9, 0.9, 0.9]).2.2.1 = [] ∧
    ¬ (maybe_trigger_event EVENT_REGISTRY defaultStartup [0.9, 0.9, 0.9, 0.9]).2.2.1 =
      List.drop 1 [0.9, 0.9, 0.9, 0.9] := by
  with_unfolding_all decide

/-- The trigger loop leaves the RNG stream advanced by exactly the number of
candidates it examined. -/
theorem triggerLoop_rng (s : Startup) (active : List (String × Int)) :
    ∀ (rng : List Rat) (events : List GameEvent),
    (triggerLoop s active rng events).2.2.2.1 =
      rng.drop (triggerExamineCount s active rng events) := by
  intro rng events
  induction events generalizing rng with
  | nil => rfl
  | cons e rest ih =>
    unfold triggerLoop triggerExamineCount
    by_cases hact : isActiveIn active e.id = true
    · rw [if_pos hact, if_pos hact]
      exact ih rng
    · rw [if_neg hact, if_neg hact]
      dsimp only
      by_cases hroll : rng.headD 0 ≤ state_adjusted_chance s e
      · rw [if_pos hroll, if_pos hroll]
        rcases happ : apply_event_effects s e with ⟨s2, oe⟩
        cases oe <;> simp [List.drop_one]
      · rw [if_neg hroll, if_neg hroll]
        rw [ih rng.tail, ← List.drop_one, List.drop_drop]

/-- Claim C8 (amended): within one turn the RNG stream advances in a fully
specified order, but the event-trigger phase consumes one draw per examined
eligible (non-active) candidate in ascending id order, stopping at the first
successful roll — exactly one draw only when the first candidate examined
triggers; each risked action still consumes exactly one draw, and an action
without a risk block consumes none. -/
theorem rng_draw_accounting :
    (∀ (registry : List GameEvent) (s : Startup) (rng : List Rat),
      (maybe_trigger_event registry s rng).2.2.1 =
        rng.drop (triggerExamineCount s (decodeActiveEvents s.active_events) rng registry)) ∧
    (∀ (registry : List GameEvent) (s : Startup) (rng : List Rat),
      triggerExamineCount s (decodeActiveEvents s.active_events) rng registry ≤
        registry.length) ∧
    (∀ (registry : List Action) (s : Startup) (aid : String) (rng : List Rat)
      (a : Action),
      lookupAction registry aid = some a → a.risk = none →
      (apply_action registry s aid rng).2.1 = rng) ∧
    (∀ (registry : List Action) (s : Startup) (aid : String) (rng : List Rat)
      (a : Action) (r : RiskSpec) (s2 : Startup) (rng2 : List Rat) (txt : String),
      lookupAction registry aid = some a → a.risk = some r →
      apply_action registry s aid rng = (s2, rng2, .ok txt) →
      rng2 = rng.tail) := by
  refine ⟨?_, ?_, ?_, ?_⟩
  · intro registry s rng
    unfold maybe_trigger_event
    dsimp only
    have hloop := triggerLoop_rng s (decodeActiveEvents s.active_events) rng registry
    rcases hres : triggerLoop s (decodeActiveEvents s.active_events) rng registry with
      ⟨s2, act2, narr2, rng3, oe⟩
    rw [hres] at hloop
    cases oe with
    | none => exact hloop
    | some e => exact hloop
  · intro registry s rng
    induction registry generalizing rng with
    | nil => exact Nat.le_refl 0
    | cons e rest ih =>
      unfold triggerExamineCount
      by_cases hact : isActiveIn (decodeActiveEvents s.active_events) e.id = true
      · rw [if_pos hact]
        exact Nat.le_succ_of_le (ih rng)
      · rw [if_neg hact]
        by_cases hroll : rng.headD 0 ≤ state_adjusted_chance s e
        · rw [if_pos hroll]
          simp
        · rw [if_neg hroll]
          have := ih rng.tail
          simp only [List.length_cons]
          omega
  · intro registry s aid rng a hl hr
    unfold apply_action
    rw [hl]
    dsimp only
    rcases hc : applyCosts s a with ⟨s1, oc⟩
    cases oc with
    | some e => rfl
    | none =>
      dsimp only
      rcases he : actionsApplyDeltas s1 a.effects with ⟨se, oe⟩
      cases oe with
      | some e => rfl
      | none =>
        dsimp only
        rw [hr]
  · intro registry s aid rng a r s2 rng2 txt hl hr h
    unfold apply_action at h
    rw [hl] at h
    dsimp only at h
    rcases hc : applyCosts s a with ⟨s1, oc⟩
    rw [hc] at h
    cases oc with
    | some e => simp at h
    | none =>
      dsimp only at h
      rcases he : actionsApplyDeltas s1 a.effects with ⟨se, oe⟩
      rw [he] at h
      cases oe with
      | some e => simp at h
      | none =>
        dsimp only at h
        rw [hr] at h
        dsimp only at h
        rcases hrr : resolveRisk se r (rng.headD 0) with ⟨s3, oe2, outc⟩
        rw [hrr] at h
        cases oe2 with
        | some e => simp at h
        | none =>
          simp only [Prod.mk.injEq] at h
          exact h.2.1.symm

/-- Witness for C8 (amended): an action without a risk block leaves the
stream untouched, and a risked action consumes exactly the first draw. -/
theorem rng_draw_accounting_witness :
    (apply_action [noRiskAction] defaultStartup "noop" [0.3]).2.1 = [0.3] ∧
    (apply_action ACTION_REGISTRY defaultStartup "marketing_blast"
        [(1 : Rat)/2, (3 : Rat)/4]).2.1 =
      List.tail [(1 : Rat)/2, (3 : Rat)/4] := by
  constructor
  · exact rng_draw_accounting.2.2.1 [noRiskAction] defaultStartup "noop" [0.3]
      noRiskAction (by with_unfolding_all rfl) rfl
  · exact rng_draw_accounting.2.2.2 ACTION_REGISTRY defaultStartup "marketing_blast"
      [(1 : Rat)/2, (3 : Rat)/4] marketing_blast
      { success_chance := 0.65
        success := some
          { effects := some [("monthly_revenue", 8000)]
            narrative := "The campaign resonates and signups climb." }
        failure := some
          { effects := some [("brand_awareness", -4)]
            narrative := "The message misses the mark and social media piles on." } }
      _ _ "You greenlight a week-long marketing blitz. The campaign resonates and signups climb."
      (by with_unfolding_all rfl) (by with_unfolding_all rfl)
      (by with_unfolding_all rfl)

/-- The keys after a dict upsert: unchanged when the key is present,
appended otherwise. -/
theorem upsertActive_keys (l : List (String × Int)) (k : String) (v : Int) :
    (upsertActive l k v).map Prod.fst =
      if l.any (fun p => p.1 = k) then l.map Prod.fst
      else l.map Prod.fst ++ [k] := by
  unfold upsertActive
  by_cases h : l.any (fun p => p.1 = k) = true
  · rw [if_pos h, if_pos h, List.map_map]
    apply List.map_congr_left
    intro p hp
    by_cases hpk : p.1 = k
    · simp [hpk, Function.comp]
    · simp [hpk, Function.comp]
  · rw [if_neg h, if_neg h, List.map_append]
    rfl

/-- A failed `any` membership probe means the key is absent. -/
theorem not_mem_keys_of_any_false (l : List (String × Int)) (k : String)
    (h : ¬ l.any (fun p => p.1 = k) = true) : k ∉ l.map Prod.fst := by
  intro hmem
  obtain ⟨p, hp, hpk⟩ := List.mem_map.mp hmem
  exact h (List.any_eq_true.mpr ⟨p, hp, by simp [hpk]⟩)

/-- The decoded active-events association list has pairwise distinct keys:
the decoder builds a Python dict. -/
theorem decodeActiveEvents_keys_nodup (values : List String) :
    ((decodeActiveEvents values).map Prod.fst).Nodup := by
  suffices h : ∀ (acc : List (String × Int)), (acc.map Prod.fst).Nodup →
      ((values.foldl
        (fun acc entry =>
          let p := splitFirstColon entry
          let turns := max 0 ((parsePyInt p.2).getD 0)
          if p.1 = "" then acc else upsertActive acc p.1 turns) acc).map Prod.fst).Nodup by
    exact h [] (by simp)
  induction values with
  | nil => intro acc hacc; exact hacc
  | cons entry rest ih =>
    intro acc hacc
    apply ih
    dsimp only
    by_cases hid : (splitFirstColon entry).1 = ""
    · rw [if_pos hid]
      exact hacc
    · rw [if_neg hid]
      rw [upsertActive_keys]
      by_cases hany : acc.any (fun p => p.1 = (splitFirstColon entry).1) = true
      · rw [if_pos hany]
        exact hacc
      · rw [if_neg hany]
        refine List.Nodup.append hacc (List.nodup_singleton _) ?_
        intro x hx hx2
        simp at hx2
        subst hx2
        exact not_mem_keys_of_any_false acc _ hany hx

/-- In an association list with distinct keys, a key determines its value. -/
theorem mem_assoc_unique {l : List (String × Int)} (h : (l.map Prod.fst).Nodup)
    {id : String} {n t : Int} (h1 : (id, n) ∈ l) (h2 : (id, t) ∈ l) : n = t := by
  induction l with
  | nil => simp at h1
  | cons p rest ih =>
    rw [List.map_cons, List.nodup_cons] at h
    rcases List.mem_cons.mp h1 with he1 | hm1 <;>
      rcases List.mem_cons.mp h2 with he2 | hm2
    · rw [← he1] at he2
      exact (Prod.mk.injEq _ _ _ _ ▸ he2).2.symm
    · exfalso
      apply h.1
      rw [← he1]
      exact List.mem_map.mpr ⟨(id, t), hm2, rfl⟩
    · exfalso
      apply h.1
      rw [← he2]
      exact List.mem_map.mpr ⟨(id, n), hm1, rfl⟩
    · exact ih h.2 hm1 hm2

/-- The tick loop only ever appends to its accumulated surviving-entries
list. -/
theorem tickLoop_upd_mono (registry : List GameEvent) (entries : List (String × Int)) :
    ∀ (s : Startup) (upd : List (String × Int)) (msgs : List String)
      (x : String × Int), x ∈ upd →
      x ∈ (tickLoop registry entries s upd msgs).2.1 := by
  induction entries with
  | nil => intro s upd msgs x hx; exact hx
  | cons head rest ih =>
    obtain ⟨id, turns⟩ := head
    intro s upd msgs x hx
    unfold tickLoop
    cases hl : lookupEvent registry id with
    | none => exact ih s upd msgs x hx
    | some e =>
      dsimp only
      split_ifs with hrem
      · exact ih s (upd ++ [(id, max 0 (turns - 1))]) msgs x (List.mem_append_left _ hx)
      · cases hrev : e.revert_effects with
        | none => exact ih s upd (msgs ++ [e.name ++ " has concluded."]) x hx
        | some rev =>
          dsimp only
          rcases hrc : runEffectCallable rev s with ⟨s2, oe⟩
          cases oe with
          | some err => exact hx
          | none =>
            exact ih s2.clamp_all upd (msgs ++ [e.name ++ " has concluded."]) x hx

/-- The tick loop only ever appends to its accumulated message list. -/
theorem tickLoop_msgs_mono (registry : List GameEvent) (entries : List (String × Int)) :
    ∀ (s : Startup) (upd : List (String × Int)) (msgs : List String)
      (m : String), m ∈ msgs →
      m ∈ (tickLoop registry entries s upd msgs).2.2.1 := by
  induction entries with
  | nil => intro s upd msgs m hm; exact hm
  | cons head rest ih =>
    obtain ⟨id, turns⟩ := head
    intro s upd msgs m hm
    unfold tickLoop
    cases hl : lookupEvent registry id with
    | none => exact ih s upd msgs m hm
    | some e =>
      dsimp only
      split_ifs with hrem
      · exact ih s (upd ++ [(id, max 0 (turns - 1))]) msgs m hm
      · cases hrev : e.revert_effects with
        | none =>
          exact ih s upd (msgs ++ [e.name ++ " has concluded."]) m
            (List.mem_append_left _ hm)
        | some rev =>
          dsimp only
          rcases hrc : runEffectCallable rev s with ⟨s2, oe⟩
          cases oe with
          | some err => exact hm
          | none =>
            exact ih s2.clamp_all upd (msgs ++ [e.name ++ " has concluded."]) m
              (List.mem_append_left _ hm)

/-- An active entry with more than one remaining turn survives a tick with
its counter decremented by one. -/
theorem tickLoop_keep (registry : List GameEvent) (entries : List (String × Int))
    (id : String) (n : Int) (e : GameEvent)
    (hlook : lookupEvent registry id = some e) (hn : 1 < n) :
    ∀ (s : Startup) (upd : List (String × Int)) (msgs : List String),
    (id, n) ∈ entries →
    (tickLoop registry entries s upd msgs).2.2.2 = none →
    (id, n - 1) ∈ (tickLoop registry entries s upd msgs).2.1 := by
  induction entries with
  | nil =>
    intro s upd msgs hmem _
    simp at hmem
  | cons head rest ih =>
    obtain ⟨k, t⟩ := head
    intro s upd msgs hmem herr
    rcases List.mem_cons.mp hmem with heq | hmem2
    · rw [Prod.mk.injEq] at heq
      obtain ⟨h1, h2⟩ := heq
      subst h1
      subst h2
      unfold tickLoop at herr ⊢
      rw [hlook] at herr ⊢
      dsimp only at herr ⊢
      have hrem : (0:Int) < max 0 (n - 1) := by omega
      rw [if_pos hrem] at herr ⊢
      refine tickLoop_upd_mono registry rest s (upd ++ [(id, max 0 (n - 1))]) msgs
        (id, n - 1) ?_
      have hmax : max 0 (n - 1) = n - 1 := by omega
      rw [hmax]
      exact List.mem_append_right _ (by simp)
    · unfold tickLoop at herr ⊢
      cases hl : lookupEvent registry k with
      | none =>
        rw [hl] at herr
        exact ih s upd msgs hmem2 herr
      | some e2 =>
        rw [hl] at herr
        dsimp only at herr ⊢
        split_ifs at herr ⊢ with hrem
        · exact ih s (upd ++ [(k, max 0 (t - 1))]) msgs hmem2 herr
        · cases hrev : e2.revert_effects with
          | none =>
            rw [hrev] at herr
            exact ih s upd (msgs ++ [e2.name ++ " has concluded."]) hmem2 herr
          | some rev =>
            rw [hrev] at herr
            dsimp only at herr ⊢
            rcases hrc : runEffectCallable rev s with ⟨s2, oe⟩
            rw [hrc] at herr
            cases oe with
            | some err => simp at herr
            | none =>
              exact ih s2.clamp_all upd (msgs ++ [e2.name ++ " has concluded."])
                hmem2 herr

/-- An active entry whose counter expires on this tick emits its concluded
message. -/
theorem tickLoop_concluded (registry : List GameEvent) (entries : List (String × Int))
    (id : String) (n : Int) (e : GameEvent)
    (hlook : lookupEvent registry id = some e) (hn : n ≤ 1) :
    ∀ (s : Startup) (upd : List (String × Int)) (msgs : List String),
    (id, n) ∈ entries →
    (tickLoop registry entries s upd msgs).2.2.2 = none →
    (e.name ++ " has concluded.") ∈ (tickLoop registry entries s upd msgs).2.2.1 := by
  induction entries with
  | nil =>
    intro s upd msgs hmem _
    simp at hmem
  | cons head rest ih =>
    obtain ⟨k, t⟩ := head
    intro s upd msgs hmem herr
    rcases List.mem_cons.mp hmem with heq | hmem2
    · rw [Prod.mk.injEq] at heq
      obtain ⟨h1, h2⟩ := heq
      subst h1
      subst h2
      unfold tickLoop at herr ⊢
      rw [hlook] at herr ⊢
      dsimp only at herr ⊢
      have hrem : ¬ (0:Int) < max 0 (n - 1) := by omega
      rw [if_neg hrem] at herr ⊢
      cases hrev : e.revert_effects with
      | none =>
        rw [hrev] at herr
        exact tickLoop_msgs_mono registry rest s upd
          (msgs ++ [e.name ++ " has concluded."]) _ (List.mem_append_right _ (by simp))
      | some rev =>
        rw [hrev] at herr
        dsimp only at herr ⊢
        rcases hrc : runEffectCallable rev s with ⟨s2, oe⟩
        rw [hrc] at herr
        cases oe with
        | some err => simp at herr
        | none =>
          exact tickLoop_msgs_mono registry rest s2.clamp_all upd
            (msgs ++ [e.name ++ " has concluded."]) _ (List.mem_append_right _ (by simp))
    · unfold tickLoop at herr ⊢
      cases hl : lookupEvent registry k with
      | none =>
        rw [hl] at herr
        exact ih s upd msgs hmem2 herr
      | some e2 =>
        rw [hl] at herr
        dsimp only at herr ⊢
        split_ifs at herr ⊢ with hrem
        · exact ih s (upd ++ [(k, max 0 (t - 1))]) msgs hmem2 herr
        · cases hrev : e2.revert_effects with
          | none =>
            rw [hrev] at herr
            exact ih s upd (msgs ++ [e2.name ++ " has concluded."]) hmem2 herr
          | some rev =>
            rw [hrev] at herr
            dsimp only at herr ⊢
            rcases hrc : runEffectCallable rev s with ⟨s2, oe⟩
            rw [hrc] at herr
            cases oe with
            | some err => simp at herr
            | none =>
              exact ih s2.clamp_all upd (msgs ++ [e2.name ++ " has concluded."])
                hmem2 herr

/-- Every entry of the surviving-entries list either was already accumulated
or is the decrement of a processed entry that stayed positive. -/
theorem tickLoop_upd_source (registry : List GameEvent) (id : String) :
    ∀ (entries : List (String × Int)) (s : Startup) (upd : List (String × Int))
      (msgs : List String) (m : Int),
    (id, m) ∈ (tickLoop registry entries s upd msgs).2.1 →
    (id, m) ∈ upd ∨ ∃ t, (id, t) ∈ entries ∧ m = max 0 (t - 1) ∧ 0 < m := by
  intro entries
  induction entries with
  | nil =>
    intro s upd msgs m h
    exact .inl h
  | cons head rest ih =>
    obtain ⟨k, t⟩ := head
    intro s upd msgs m h
    unfold tickLoop at h
    cases hl : lookupEvent registry k with
    | none =>
      rw [hl] at h
      rcases ih s upd msgs m h with h1 | ⟨t2, hm2, he2, hp2⟩
      · exact .inl h1
      · exact .inr ⟨t2, List.mem_cons_of_mem _ hm2, he2, hp2⟩
    | some e2 =>
      rw [hl] at h
      dsimp only at h
      split_ifs at h with hrem
      · rcases ih s (upd ++ [(k, max 0 (t - 1))]) msgs m h with h1 | ⟨t2, hm2, he2, hp2⟩
        · rcases List.mem_append.mp h1 with h2 | h2
          · exact .inl h2
          · simp only [List.mem_singleton, Prod.mk.injEq] at h2
            obtain ⟨hik, him⟩ := h2
            refine .inr ⟨t, ?_, him, ?_⟩
            · rw [hik]
              exact List.mem_cons_self _ _
            · rw [him]
              exact hrem
        · exact .inr ⟨t2, List.mem_cons_of_mem _ hm2, he2, hp2⟩
      · cases hrev : e2.revert_effects with
        | none =>
          rw [hrev] at h
          rcases ih s upd (msgs ++ [e2.name ++ " has concluded."]) m h with
            h1 | ⟨t2, hm2, he2, hp2⟩
          · exact .inl h1
          · exact .inr ⟨t2, List.mem_cons_of_mem _ hm2, he2, hp2⟩
        | some rev =>
          rw [hrev] at h
          dsimp only at h
          rcases hrc : runEffectCallable rev s with ⟨s2, oe⟩
          rw [hrc] at h
          cases oe with
          | some err => exact .inl h
          | none =>
            rcases ih s2.clamp_all upd (msgs ++ [e2.name ++ " has concluded."]) m h with
              h1 | ⟨t2, hm2, he2, hp2⟩
            · exact .inl h1
            · exact .inr ⟨t2, List.mem_cons_of_mem _ hm2, he2, hp2⟩

/-- When every decoded entry still has at least two turns remaining, the tick
loop touches neither the numeric state nor the message list and cannot
raise. -/
theorem tickLoop_no_expiry (registry : List GameEvent) :
    ∀ (entries : List (String × Int)), (∀ p ∈ entries, (1:Int) < p.2) →
    ∀ (s : Startup) (upd : List (String × Int)) (msgs : List String),
    ∃ upd2, tickLoop registry entries s upd msgs = (s, upd2, msgs, none) := by
  intro entries
  induction entries with
  | nil =>
    intro _ s upd msgs
    exact ⟨upd, rfl⟩
  | cons head rest ih =>
    obtain ⟨k, t⟩ := head
    intro h s upd msgs
    have ht : (1:Int) < t := h (k, t) (by simp)
    have hrest : ∀ p ∈ rest, (1:Int) < p.2 := fun p hp => h p (List.mem_cons_of_mem _ hp)
    unfold tickLoop
    cases hl : lookupEvent registry k with
    | none => exact ih hrest s upd msgs
    | some e2 =>
      dsimp only
      have hrem : (0:Int) < max 0 (t - 1) := by omega
      rw [if_pos hrem]
      exact ih hrest s (upd ++ [(k, max 0 (t - 1))]) msgs

/-- Counterexample for C2: with `server_crash` active at 2 remaining turns,
one tick decrements the counter to 1 but does NOT re-apply the event's
deltas — monthly revenue stays at 45000 instead of dropping by 12000. -/
theorem tick_no_reapply_cex :
    (tick_active_events EVENT_REGISTRY
      { defaultStartup with active_events := ["server_crash:2"] }).1.active_events =
      ["server_crash:1"] ∧
    (tick_active_events EVENT_REGISTRY
      { defaultStartup with active_events := ["server_crash:2"] }).1.monthly_revenue =
      defaultStartup.monthly_revenue ∧
    ¬ (tick_active_events EVENT_REGISTRY
      { defaultStartup with active_events := ["server_crash:2"] }).1.monthly_revenue =
      defaultStartup.monthly_revenue + (-12000) := by
  with_unfolding_all decide

/-- Claim C2 (amended): for every event Active with remaining duration n,
one call to `tick_active_events` decrements its counter to n-1 WITHOUT
re-applying the event's deltas, keeping it Active when n-1 > 0; when the
counter reaches 0 the event's revert deltas (if any) are applied, a
"has concluded" narrative is emitted, and the event is removed from
activeEvents. -/
theorem tick_event_lifecycle :
    (∀ (registry : List GameEvent) (s : Startup) (id : String) (n : Int)
      (e : GameEvent),
      lookupEvent registry id = some e →
      (id, n) ∈ decodeActiveEvents s.active_events →
      1 < n →
      (tick_active_events registry s).2.2 = none →
      ∃ upd : List (String × Int),
        (tick_active_events registry s).1.active_events = encodeActiveEvents upd ∧
        (id, n - 1) ∈ upd) ∧
    (∀ (registry : List GameEvent) (s : Startup) (id : String) (n : Int)
      (e : GameEvent),
      lookupEvent registry id = some e →
      (id, n) ∈ decodeActiveEvents s.active_events →
      n ≤ 1 →
      (tick_active_events registry s).2.2 = none →
      (e.name ++ " has concluded.") ∈ (tick_active_events registry s).2.1 ∧
      ∃ upd : List (String × Int),
        (tick_active_events registry s).1.active_events = encodeActiveEvents upd ∧
        ∀ m, (id, m) ∉ upd) ∧
    (∀ (registry : List GameEvent) (s : Startup),
      (∀ p ∈ decodeActiveEvents s.active_events, (1:Int) < p.2) →
      (tick_active_events registry s).1 =
        { s with active_events := (tick_active_events registry s).1.active_events } ∧
      (tick_active_events registry s).2.1 = [] ∧
      (tick_active_events registry s).2.2 = none) ∧
    (∀ (registry : List GameEvent) (s : Startup) (id : String) (n : Int)
      (e : GameEvent) (rev : List (String × Rat)) (s2 : Startup),
      lookupEvent registry id = some e →
      decodeActiveEvents s.active_events = [(id, n)] →
      n ≤ 1 →
      e.revert_effects = some rev →
      runEffectCallable rev s = (s2, none) →
      tick_active_events registry s =
        ({ s2.clamp_all with active_events := [] },
         [e.name ++ " has concluded."], none)) ∧
    (∀ (registry : List GameEvent) (s : Startup) (id : String) (n : Int)
      (e : GameEvent),
      lookupEvent registry id = some e →
      decodeActiveEvents s.active_events = [(id, n)] →
      n ≤ 1 →
      e.revert_effects = none →
      tick_active_events registry s =
        ({ s with active_events := [] }, [e.name ++ " has concluded."], none)) := by
  refine ⟨?_, ?_, ?_, ?_, ?_⟩
  · intro registry s id n e hlook hmem hn herr
    rcases hres : tickLoop registry (decodeActiveEvents s.active_events) s [] [] with
      ⟨s2, upd, msgs2, oe⟩
    have htick : tick_active_events registry s =
        (match (s2, upd, msgs2, oe) with
         | (s2, upd, msgs, none) =>
           ({ s2 with active_events := encodeActiveEvents upd }, msgs, none)
         | (s2, _, msgs, some err) => (s2, msgs, some err)) := by
      unfold tick_active_events
      rw [hres]
    cases oe with
    | some err =>
      rw [htick] at herr
      simp at herr
    | none =>
      have htick2 : tick_active_events registry s =
          ({ s2 with active_events := encodeActiveEvents upd }, msgs2, none) := htick
      rw [htick2]
      refine ⟨upd, rfl, ?_⟩
      have hkeep := tickLoop_keep registry (decodeActiveEvents s.active_events)
        id n e hlook hn s [] [] hmem (by rw [hres])
      rw [hres] at hkeep
      exact hkeep
  · intro registry s id n e hlook hmem hn herr
    rcases hres : tickLoop registry (decodeActiveEvents s.active_events) s [] [] with
      ⟨s2, upd, msgs2, oe⟩
    have htick : tick_active_events registry s =
        (match (s2, upd, msgs2, oe) with
         | (s2, upd, msgs, none) =>
           ({ s2 with active_events := encodeActiveEvents upd }, msgs, none)
         | (s2, _, msgs, some err) => (s2, msgs, some err)) := by
      unfold tick_active_events
      rw [hres]
    cases oe with
    | some err =>
      rw [htick] at herr
      simp at herr
    | none =>
      have htick2 : tick_active_events registry s =
          ({ s2 with active_events := encodeActiveEvents upd }, msgs2, none) := htick
      rw [htick2]
      constructor
      · have hmsg := tickLoop_concluded registry (decodeActiveEvents s.active_events)
          id n e hlook hn s [] [] hmem (by rw [hres])
        rw [hres] at hmsg
        exact hmsg
      · refine ⟨upd, rfl, ?_⟩
        intro m hm
        have hsrc := tickLoop_upd_source registry id
          (decodeActiveEvents s.active_events) s [] [] m (by rw [hres]; exact hm)
        rcases hsrc with h1 | ⟨t, hmt, heq, hpos⟩
        · simp at h1
        · have ht : n = t := mem_assoc_unique
            (decodeActiveEvents_keys_nodup s.active_events) hmem hmt
          rw [← ht] at heq
          have : m = 0 := by omega
          omega
  · intro registry s hall
    obtain ⟨upd2, heq⟩ := tickLoop_no_expiry registry
      (decodeActiveEvents s.active_events) hall s [] []
    have htick : tick_active_events registry s =
        ({ s with active_events := encodeActiveEvents upd2 }, [], none) := by
      unfold tick_active_events
      rw [heq]
    rw [htick]
    exact ⟨rfl, rfl, rfl⟩
  · intro registry s id n e rev s2 hlook hdec hn hrev hrun
    have hloop : tickLoop registry [(id, n)] s [] [] =
        (s2.clamp_all, [], [e.name ++ " has concluded."], none) := by
      unfold tickLoop
      rw [hlook]
      dsimp only
      rw [if_neg (show ¬ (0:Int) < max 0 (n - 1) by omega), hrev]
      dsimp only
      rw [hrun]
      rfl
    unfold tick_active_events
    rw [hdec, hloop]
    rfl
  · intro registry s id n e hlook hdec hn hrev
    have hloop : tickLoop registry [(id, n)] s [] [] =
        (s, [], [e.name ++ " has concluded."], none) := by
      unfold tickLoop
      rw [hlook]
      dsimp only
      rw [if_neg (show ¬ (0:Int) < max 0 (n - 1) by omega), hrev]
      rfl
    unfold tick_active_events
    rw [hdec, hloop]
    rfl

/-- Witness for C2 (amended): `server_crash` active at 2 stays active at 1
after a tick, and active at 1 it expires — its revert deltas run, the
concluded message is emitted, and it leaves the active list. -/
theorem tick_event_lifecycle_witness :
    (∃ upd : List (String × Int),
      (tick_active_events EVENT_REGISTRY
        { defaultStartup with active_events := ["server_crash:2"] }).1.active_events =
        encodeActiveEvents upd ∧ ("server_crash", (1:Int)) ∈ upd) ∧
    tick_active_events EVENT_REGISTRY
      { defaultStartup with active_events := ["server_crash:1"] } =
      ({ (runEffectCallable [("monthly_revenue", 12000), ("team_morale", 2)]
            { defaultStartup with active_events := ["server_crash:1"] }).1.clamp_all with
          active_events := [] },
       ["Major Server Crash has concluded."], none) := by
  constructor
  · exact tick_event_lifecycle.1 EVENT_REGISTRY
      { defaultStartup with active_events := ["server_crash:2"] }
      "server_crash" 2 server_crash (by with_unfolding_all rfl)
      (by with_unfolding_all decide) (by decide) (by with_unfolding_all rfl)
  · exact tick_event_lifecycle.2.2.2.1 EVENT_REGISTRY
      { defaultStartup with active_events := ["server_crash:1"] }
      "server_crash" 1 server_crash [("monthly_revenue", 12000), ("team_morale", 2)]
      _ (by with_unfolding_all rfl) (by with_unfolding_all rfl) (by decide)
      rfl (by with_unfolding_all rfl)

end StartupSim
